import Mathlib

/-!
Verification development for the calculation-orchestration slice of the
Architector repository (files `io_calc.py`, `io_symmetry.py`, `io_neb.py`,
`vibrations_free_energy.py`).

The Python source is shallowly embedded:
* pure functions become Lean functions over `List`/`Nat`/`Int`/`ℚ`;
* the stateful `CalcExecutor.calculate` becomes explicit state passing over a
  `RunState` record, with each external engine call (xTB, openbabel, the ASE
  optimizer, `rmsd_align`) replaced by an oracle (`Engine`) of `Except` results,
  since those engines are outside the provided source;
* fallible Python code (raised `ValueError`s that escape) returns `Except`;
* IEEE special values are modelled by the `Flt` type (`nan`/`inf` tags around a
  rational payload), which is all the source inspects about them (`np.isnan`).

Functions of the repository that are referenced but whose code is not under the
provided source tree (`io_molecule`, `io_align_mol`, `io_obabel`, ASE) are
modelled from the specification and carry a doc comment saying so.
-/

/-- Model of a floating-point coordinate: a finite rational or one of the IEEE
special values.  The source only ever branches on `np.isnan`, so no arithmetic
on the special values is needed. -/
inductive Flt where
  | fin : ℚ → Flt
  | nan : Flt
  | inf : Flt
  | ninf : Flt
deriving DecidableEq, Repr, Inhabited

/-- Embedding of `np.isnan` on a single value: true exactly on NaN (note that
infinities are not NaN). -/
def Flt.isnan : Flt → Bool
  | .nan => true
  | _ => false

/-- Case-insensitive lowering of a method-name string, embedding Python's
`str.lower` on the ASCII method names used by the source. -/
def lowerStr (s : String) : String :=
  String.mk (s.toList.map Char.toLower)

/-- Embedding of Python's substring test `pat in s`. -/
def strContains (s pat : String) : Bool :=
  (List.range (s.toList.length + 1)).any fun i => pat.toList.isPrefixOf (s.toList.drop i)

/-- Model of the structure object handled by the executor (`io_molecule`'s
Molecule together with its `ase_atoms`).  `positions` is the flattened
coordinate array; `charge`/`uhf` are the nominal formal charge and unpaired
electron count and `xtb_charge`/`xtb_uhf` the engine-specific ones;
`dists_sane` is the flag read by the executor's gate; `dist_check_ok` and
`graph_check_ok` are the (precomputed) verdicts the external sanity checks
would produce on this structure under the run's parameters; `suggested_uhf` /
`suggested_xtb_uhf` are the values the external suggested-spin routine would
assign; `chg0`/`mm0` record the head entries of the initial-charge and
initial-magnetic-moment vectors handed to the calculator; `constrained` and
`swapped` record the fixed-component constraint and the actinide/lanthanide
surrogate swap. -/
structure Mol where
  positions : List Flt
  charge : Int
  xtb_charge : Int
  uhf : Int
  xtb_uhf : Int
  suggested_uhf : Int
  suggested_xtb_uhf : Int
  dists_sane : Bool
  dist_check_ok : Bool
  graph_sane : Bool
  graph_check_ok : Bool
  chg0 : Int
  mm0 : Int
  constrained : Bool
  swapped : Bool
deriving DecidableEq, Repr, Inhabited

/-- Modelled from the spec: `io_molecule.convert_io_molecule` converts any
structure-like input into a fresh equivalent Molecule; on our model type the
conversion is content-preserving, i.e. the identity. -/
def convert_io_molecule (m : Mol) : Mol := m

/-- Modelled from the spec: `Molecule.dist_sanity_checks` runs the
distance-based sanity checks (smallest-distance and minimum-distance cutoffs)
and records the verdict in `dists_sane`.  The verdict for this structure under
the run's parameters is the precomputed field `dist_check_ok`. -/
def dist_sanity_checks (m : Mol) : Mol :=
  { m with dists_sane := m.dist_check_ok }

/-- Modelled from the spec: `Molecule.graph_sanity_checks` runs the
bonding-graph sanity checks, recording its verdict separately from the
minimum-distance flag that gates evaluation. -/
def graph_sanity_checks (m : Mol) : Mol :=
  { m with graph_sane := m.graph_check_ok }

/-- Modelled from the spec: `Molecule.calc_suggested_spin` (re)computes a
suggested spin state for the structure; coordinates are untouched. -/
def calc_suggested_spin (m : Mol) : Mol :=
  { m with uhf := m.suggested_uhf, xtb_uhf := m.suggested_xtb_uhf }

/-- Modelled from the spec: `Molecule.swap_actinide` restores any
surrogate-element relabeling; coordinates are untouched (source line 381 calls
it unconditionally to restore the original element identities). -/
def swap_actinide (m : Mol) : Mol :=
  if m.swapped then { m with swapped := false } else m

/-- Oracle for every external engine call the executor can make during one
evaluation.  Each field is the result the corresponding external call would
return (`Except.error` models the call raising). -/
structure Engine where
  init_energy_res : Except String ℚ
  opt_run : Except String Unit
  final_energy_res : Except String ℚ
  relaxed_positions : List Flt
  align_res : Except String (List Flt × ℚ)
  sp_energy_res : Except String ℚ
  obmol_energy_res : Except String ℚ
  obmol_opt_res : Except String (List Flt × ℚ)
  obmol_align_res : Except String (List Flt × ℚ)
  fg_energy_res : Except String ℚ
deriving Repr, Inhabited

/-- The executor's resolved per-run configuration: the attribute values that
`CalcExecutor.__init__` (defaults, the `parameters` merge, the `setattr`
promotion, and the assembly/species/ff-preopt resolution) leaves on the
instance just before `calculate` runs. -/
structure ExecCfg where
  init_sanity_check : Bool
  final_sanity_check : Bool
  relax : Bool
  assembly : Bool
  method : String
  species_run : Bool
  skip_spin_assign : Bool
  has_calculator : Bool
  override_oxo_opt : Bool
  force_oxo_relax : Bool
  force_generation : Bool
  save_trajectories : Bool
  assemble_sanity_checks : Bool
  freeze_molecule_add_species : Bool
deriving DecidableEq, Repr, Inhabited

/-- Constructor arguments of `CalcExecutor.__init__` together with the
attribute values that the `parameters` merge / `setattr` promotion produces
(the source promotes every override key to an instance attribute). -/
structure ExecArgs where
  init_sanity_check : Bool
  final_sanity_check : Bool
  relax : Bool
  assembly : Bool
  method : String
  ff_preopt_run : Bool
  species_run : Bool
  intermediate : Option String
  skip_spin_assign : Bool
  has_calculator : Bool
  has_parameters : Bool
  save_trajectories : Bool
  assemble_sanity_checks : Bool
  assemble_method : String
  full_method : String
  override_oxo_opt : Bool
  force_oxo_relax : Bool
  force_generation : Bool
  freeze_molecule_add_species : Bool
  species_method : String
  species_relax : Bool
  species_intermediate_method : String
  species_intermediate_relax : Bool
deriving DecidableEq, Repr, Inhabited

/-- Embedding of the method/relax resolution in `CalcExecutor.__init__`
(source lines 172-197): assembly forces initial sanity checks on, relaxation
off and the assembly method; a species run picks the species method and
relaxation flags (the `'main'` sub-stage also forcing `force_oxo_relax`); an
explicit parameter override otherwise selects either a UFF pre-optimization or
the configured full method; with no overrides only a bare pre-optimization
request is honored. -/
def CalcExecutor_resolve (a : ExecArgs) : ExecCfg :=
  let mra : String × Bool × Bool × Bool :=
    if a.assembly then
      (a.assemble_method, false, true, a.force_oxo_relax)
    else if a.species_run then
      match a.intermediate with
      | some s =>
          if s = "rotation" then
            (a.species_intermediate_method, false, a.init_sanity_check, a.force_oxo_relax)
          else if s = "main" then
            (a.species_method, a.species_intermediate_relax, a.init_sanity_check, true)
          else (a.method, a.relax, a.init_sanity_check, a.force_oxo_relax)
      | none => (a.species_method, a.species_relax, a.init_sanity_check, a.force_oxo_relax)
    else if a.has_parameters then
      if a.ff_preopt_run then ("UFF", true, a.init_sanity_check, a.force_oxo_relax)
      else (a.full_method, a.relax, a.init_sanity_check, a.force_oxo_relax)
    else
      if a.ff_preopt_run then ("UFF", true, a.init_sanity_check, a.force_oxo_relax)
      else (a.method, a.relax, a.init_sanity_check, a.force_oxo_relax)
  { init_sanity_check := mra.2.2.1
    final_sanity_check := a.final_sanity_check
    relax := mra.2.1
    assembly := a.assembly
    method := mra.1
    species_run := a.species_run
    skip_spin_assign := a.skip_spin_assign
    has_calculator := a.has_calculator
    override_oxo_opt := a.override_oxo_opt
    force_oxo_relax := mra.2.2.2
    force_generation := a.force_generation
    save_trajectories := a.save_trajectories
    assemble_sanity_checks := a.assemble_sanity_checks
    freeze_molecule_add_species := a.freeze_molecule_add_species }

/-- The executor's mutable output attributes during `calculate` (source lines
209-218 initialize them; the run mutates them in place). -/
structure RunState where
  mol : Mol
  energy : Option ℚ
  init_energy : Option ℚ
  errors : List String
  successful : Bool
  trajectory : Option Unit
  rmsd : Option ℚ
  done : Bool
  method : String
  relax : Bool
deriving DecidableEq, Repr

/-- Initial output attributes at the start of `calculate` (source lines
209-217): no energies, no errors, not successful, not done. -/
def mk_init_state (cfg : ExecCfg) (mol : Mol) : RunState :=
  { mol := mol, energy := none, init_energy := none, errors := [],
    successful := false, trajectory := none, rmsd := none, done := false,
    method := cfg.method, relax := cfg.relax }

/-- Embedding of the shared `except` body of the non-force-field paths (source
lines 308-317 and 330-339): record the raised condition, then set both the
final and the initial energy to the 10000 sentinel. -/
def sentinel_update (st : RunState) (e : String) : RunState :=
  { st with errors := st.errors ++ [e], energy := some 10000, init_energy := some 10000 }

/-- Embedding of the engine-selection and electronic-state step of
`CalcExecutor.calculate` (source lines 227-267).  Returns the updated state
paired with the `obabel_ff_requested` flag, or the raised `ValueError` when no
known method or calculator was requested.  On the `custom` path the nominal
charge/spin are written to the calculator vectors and the structure's
lanthanides are swapped to surrogates; on the `gfn` path a large
engine-charge/formal-charge mismatch disables relaxation (or, failing the
first condition, downgrades an assembly run to `GFN-FF`), and the
engine-specific charge/spin are written unless the method is `GFN-FF`. -/
def engine_select (cfg : ExecCfg) (st : RunState) : Except String (RunState × Bool) :=
  if cfg.has_calculator && strContains st.method "custom" then
    .ok ({ st with mol := { st.mol with chg0 := st.mol.charge, mm0 := st.mol.uhf, swapped := true } },
         false)
  else if strContains (lowerStr st.method) "gfn" then
    let st :=
      if (st.mol.xtb_charge - st.mol.charge).natAbs > 1 then
        if ((!cfg.override_oxo_opt) || cfg.assembly) && (!cfg.force_oxo_relax) then
          { st with relax := false }
        else if cfg.assembly then
          { st with method := "GFN-FF" }
        else st
      else st
    let chg : Int := if st.method ≠ "GFN-FF" then st.mol.xtb_charge else 0
    let mm : Int := if st.method ≠ "GFN-FF" then st.mol.xtb_uhf else 0
    .ok ({ st with mol := { st.mol with chg0 := chg, mm0 := mm } }, false)
  else if strContains (lowerStr st.method) "uff" || strContains (lowerStr st.method) "mmff" then
    .ok (st, true)
  else
    .error "Warning - no known method or calculator requested."

/-- Embedding of the non-force-field relaxation protocol (source lines
277-317): initial energy, optimizer run (positions move), optional trajectory
capture, final energy, rigid-body re-alignment onto the input; any raise is
caught by `sentinel_update`. -/
def relax_attempt (cfg : ExecCfg) (eng : Engine) (st : RunState) : RunState :=
  match eng.init_energy_res with
  | .error e => sentinel_update st e
  | .ok ie =>
    let st := { st with init_energy := some ie }
    match eng.opt_run with
    | .error e =>
        sentinel_update { st with mol := { st.mol with positions := eng.relaxed_positions } } e
    | .ok _ =>
      let st := { st with mol := { st.mol with positions := eng.relaxed_positions },
                          trajectory := if cfg.save_trajectories then some () else st.trajectory }
      match eng.final_energy_res with
      | .error e => sentinel_update st e
      | .ok fe =>
        let st := { st with energy := some fe }
        match eng.align_res with
        | .error e => sentinel_update st e
        | .ok ar =>
            { st with mol := { st.mol with positions := ar.1 }, rmsd := some ar.2,
                      successful := true }

/-- Embedding of the non-force-field single-point protocol (source lines
324-339): one energy evaluation, initial energy a copy of it; any raise is
caught by `sentinel_update`. -/
def sp_attempt (eng : Engine) (st : RunState) : RunState :=
  match eng.sp_energy_res with
  | .ok v => { st with energy := some v, init_energy := some v, successful := true }
  | .error e => sentinel_update st e

/-- Embedding of the openbabel force-field relaxation path (source lines
341-357): initial energy, force-field optimization, success flag and energy,
optimized coordinates copied back, re-alignment; failures are recorded without
setting sentinel energies. -/
def obmol_relax_attempt (eng : Engine) (st : RunState) : RunState :=
  match eng.obmol_energy_res with
  | .error e => { st with errors := st.errors ++ [e] }
  | .ok ie =>
    let st := { st with init_energy := some ie }
    match eng.obmol_opt_res with
    | .error e => { st with errors := st.errors ++ [e] }
    | .ok pe =>
      let st := { st with successful := true, energy := some pe.2,
                          mol := { st.mol with positions := pe.1 } }
      match eng.obmol_align_res with
      | .error e => { st with errors := st.errors ++ [e] }
      | .ok ar => { st with mol := { st.mol with positions := ar.1 }, rmsd := some ar.2 }

/-- Embedding of the openbabel force-field single-point path (source lines
358-366): failures are recorded without sentinel energies. -/
def obmol_sp_attempt (eng : Engine) (st : RunState) : RunState :=
  match eng.obmol_energy_res with
  | .ok v => { st with energy := some v, init_energy := some v, successful := true }
  | .error e => { st with errors := st.errors ++ [e] }

/-- Embedding of the force-generation fallback (source lines 367-375): if the
primary attempt did not succeed and `force_generation` is set, one bare
force-field single point is attempted so that a result exists. -/
def force_gen_fallback (cfg : ExecCfg) (eng : Engine) (st : RunState) : RunState :=
  if (!st.successful) && cfg.force_generation then
    match eng.fg_energy_res with
    | .ok v => { st with energy := some v, init_energy := some v, successful := true }
    | .error e => { st with errors := st.errors ++ [e] }
  else st

/-- The Calculation Outcome: the executor's output attributes as observable
after construction returns (the executor object itself plays this role in the
source; `mol` is its final structure, `method`/`relax` the final resolved
values of those attributes). -/
structure Outcome where
  energy : Option ℚ
  init_energy : Option ℚ
  errors : List String
  successful : Bool
  trajectory : Option Unit
  rmsd : Option ℚ
  done : Bool
  mol : Mol
  method : String
  relax : Bool
deriving DecidableEq, Repr, Inhabited

/-- Embedding of the unconditional tail of `calculate` (source lines 380-397):
restore surrogate elements, optionally re-run the sanity checks, and discard a
geometry containing NaN coordinates in favor of a fresh conversion of the
original input with its suggested spin re-derived.  (The trajectory/database
writes of lines 391-397 are external side effects with no executor-state
change.)  `post_mol` is the element-restore / re-check stage (lines 380-384),
`finish_up` adds the NaN guard (lines 386-389) and reads off the outcome. -/
def post_mol (cfg : ExecCfg) (st : RunState) : Mol :=
  let m := swap_actinide st.mol
  if cfg.final_sanity_check then graph_sanity_checks (dist_sanity_checks m) else m

def finish_up (cfg : ExecCfg) (in_struct : Mol) (st : RunState) : Outcome :=
  let m := post_mol cfg st
  let m := if m.positions.any Flt.isnan then calc_suggested_spin (convert_io_molecule in_struct)
           else m
  { energy := st.energy, init_energy := st.init_energy, errors := st.errors,
    successful := st.successful, trajectory := st.trajectory, rmsd := st.rmsd,
    done := st.done, mol := m, method := st.method, relax := st.relax }

/-- Embedding of the pre-evaluation conversion and optional sanity checking of
`CalcExecutor.calculate` (source lines 141-142 and 220-223): the input is
converted to a Molecule and, when initial sanity checking is requested and
enabled, the distance and graph checks run on it. -/
def pre_mol (cfg : ExecCfg) (in_struct : Mol) : Mol :=
  if cfg.init_sanity_check && cfg.assemble_sanity_checks then
    graph_sanity_checks (dist_sanity_checks (convert_io_molecule in_struct))
  else convert_io_molecule in_struct

/-- Setting/removing the fixed-first-component constraint on the structure
(source lines 274-276 and 319-322); only the constraint flag changes. -/
def set_constraint (st : RunState) (b : Bool) : RunState :=
  { st with mol := { st.mol with constrained := b } }

/-- Embedding of the evaluation dispatch of `CalcExecutor.calculate` (source
lines 268-366): after engine selection (`stb.2` is `obabel_ff_requested`), the
non-force-field paths run the relaxation protocol (with the optional
freeze-first-component constraint set around it) or the single-point protocol,
and the force-field paths run their openbabel counterparts. -/
def dispatch_attempt (cfg : ExecCfg) (eng : Engine) (stb : RunState × Bool) : RunState :=
  let st := stb.1
  if !stb.2 then
    if st.relax then
      let st := if cfg.freeze_molecule_add_species && !(strContains st.method "custom") then
          set_constraint st true
        else st
      let st := relax_attempt cfg eng st
      if cfg.freeze_molecule_add_species then set_constraint st false else st
    else sp_attempt eng st
  else
    if st.relax then obmol_relax_attempt eng st else obmol_sp_attempt eng st

/-- Embedding of `CalcExecutor.calculate` (source lines 220-397) as a function
from the resolved configuration, the input structure and the engine oracle to
the final executor state.  If the (possibly checked) structure passes the
`dists_sane` gate, spin is suggested (unless skipped), an engine is selected,
the dispatch runs, the force-generation fallback may run, and the run is
marked done; otherwise the single minimum-distance error is recorded and the
run stays not-done.  Either way the unconditional tail (`finish_up`) runs.
`Except.error` models the `ValueError` raised for an unknown method, the only
exception that escapes.  `spin_mol` is the suggested-spin pre-step of source
lines 225-226, applied unless this is a species run or spin assignment is
explicitly skipped. -/
def spin_mol (cfg : ExecCfg) (m : Mol) : Mol :=
  if (!cfg.species_run) && (!cfg.skip_spin_assign) then calc_suggested_spin m else m

def calculate (cfg : ExecCfg) (in_struct : Mol) (eng : Engine) : Except String Outcome :=
  let mol := pre_mol cfg in_struct
  if mol.dists_sane then
    let mol := spin_mol cfg mol
    match engine_select cfg (mk_init_state cfg mol) with
    | .error e => .error e
    | .ok stb =>
      let st := force_gen_fallback cfg eng (dispatch_attempt cfg eng stb)
      .ok (finish_up cfg in_struct { st with done := true })
  else
    let st := mk_init_state cfg mol
    let st := { st with errors := st.errors ++ ["Min dist checks failed. Not evaluated"] }
    .ok (finish_up cfg in_struct st)

/-- Embedding of `test_combos` (io_symmetry.py lines 11-28): keep only the
combination rows none of whose site indices is already occupied
(`combs[~np.any(np.isin(combs, occupied), axis=1)]`). -/
def test_combos (combs : List (List Nat)) (occupied : List Nat) : List (List Nat) :=
  combs.filter fun c => !(c.any fun x => occupied.contains x)

/-- Embedding of `generate_good_combos` (io_symmetry.py lines 50-89).  The
source indexes `sel_input_lst` by `sel_ind`; here the remaining suffix of
pattern lists is passed instead (the Python `IndexError` on running past the
last ligand before filling the core is modelled by returning no combos, a case
`select_cons` never reaches because the denticities sum to the coordination
number).  The source returns a recursively nested list whose leaves are the
completed `prev_lig` stacks and later flattens it; here the completed stacks
are returned directly, which is the same collection the source's
`flatten`/`reshape` post-processing recovers. -/
def generate_good_combos (rest : List (List (List Nat))) (prev_lig : List (List Nat))
    (occupied_max : Nat) : List (List (List Nat)) :=
  if prev_lig.flatten.length < occupied_max then
    match rest with
    | [] => []
    | combs :: rest1 =>
      (test_combos combs prev_lig.flatten).flatMap fun r =>
        generate_good_combos rest1 (prev_lig ++ [r]) occupied_max
  else [prev_lig]

/-- Embedding of `itertools.combinations(l, n)`: all order-preserving
selections of `n` elements of `l`, in the source order. -/
def combinations : Nat → List α → List (List α)
  | 0, _ => [[]]
  | _ + 1, [] => []
  | n + 1, x :: xs => (combinations n xs).map (fun c => x :: c) ++ combinations (n + 1) xs

/-- Embedding of `map_repeat_to_highdent` (io_symmetry.py lines 91-130): all
`nlig`-combinations of the repeated ligand's site-pattern rows are flattened
into rows of length `nlig*denticity` and sorted; rows with a repeated site are
discarded; the reverse dictionary maps each kept (sorted) row back to the
original per-ligand rows of its combination, with Python's dict overwrite on a
key collision modelled by taking the last matching combination. -/
def map_repeat_to_highdent (sel_con_list : List (List Nat)) (nlig denticity : Nat) :
    List (List Nat) × (List Nat → Option (List (List Nat))) × Nat :=
  let all_combos := combinations nlig sel_con_list
  let pseudo_dent := nlig * denticity
  let kept := all_combos.filterMap fun combo =>
    let item := combo.flatten.insertionSort fun x y => x ≤ y
    if item.Nodup then some (item, combo) else none
  (kept.map Prod.fst,
   fun key => (kept.reverse.find? fun p => p.1 = key).map Prod.snd,
   pseudo_dent)

/-- Embedding of `np.argsort(xs)[::-1]` as used at io_symmetry.py line 182: a
permutation of `range xs.length` listing the positions of `xs` in decreasing
value order (numpy's quicksort leaves the order of tied entries unspecified;
a stable descending order is fixed here). -/
def argsortDesc (xs : List Nat) : List Nat :=
  (List.range xs.length).insertionSort fun i j => xs.getD j 0 ≤ xs.getD i 0

/-- Embedding of the `inv_inds` construction of `map_all_repeat_to_highdent`
(io_symmetry.py lines 190-198): walk `uinv` keeping a history of how many
times each unique-ligand index has occurred, and record for each ligand
occurrence its unique index, the position of that index in `dent_order`, and
the occurrence count so far. -/
def build_inv_inds : List Nat → List Nat → (Nat → Option Nat) → List (Nat × Nat × Nat)
  | [], _, _ => []
  | item :: rest, dent_order, hist =>
    let c := (hist item).elim 0 fun v => v + 1
    (item, dent_order.indexOf item, c) ::
      build_inv_inds rest dent_order (fun x => if x = item then some c else hist x)

/-- Embedding of `map_all_repeat_to_highdent` (io_symmetry.py lines 132-199):
if no ligand repeats, everything passes through; otherwise each repeat group
is compacted through `map_repeat_to_highdent`, the pseudo-ligands are
re-sorted by decreasing pseudo-denticity, and the reverse dictionaries (keyed
by unique-ligand index, the source's `inv_dicts_out[i] = inv_dicts_intermediate[i]`)
plus the occurrence bookkeeping needed for inversion are returned.  The
per-group intermediate loop (source lines 170-181) is the separate
`mar_inter`. -/
def mar_inter (uinds ucounts denticities : List Nat)
    (selected_con_lists : List (List (List Nat))) :
    List (List (List Nat) × Nat × Option (List Nat → Option (List (List Nat)))) :=
  (List.range uinds.length).map fun i =>
    let ind := uinds.getD i 0
    if ucounts.getD i 0 = 1 then
      (selected_con_lists.getD ind [], denticities.getD ind 0,
        (none : Option (List Nat → Option (List (List Nat)))))
    else
      let r := map_repeat_to_highdent (selected_con_lists.getD ind [])
                (ucounts.getD i 0) (denticities.getD ind 0)
      (r.1, r.2.2, some r.2.1)

def map_all_repeat_to_highdent (uinds uinv ucounts : List Nat) (denticities : List Nat)
    (selected_con_lists : List (List (List Nat))) :
    Option (List (Option (List Nat → Option (List (List Nat)))))
      × List (List (List Nat)) × List Nat × Option (List (Nat × Nat × Nat)) :=
  if !(ucounts.any fun c => c > 1) then
    (none, selected_con_lists, denticities, none)
  else
    let inter := mar_inter uinds ucounts denticities selected_con_lists
    let pseudo_dents := inter.map fun t => t.2.1
    let dent_order := argsortDesc pseudo_dents
    let out_dents := dent_order.map fun j => pseudo_dents.getD j 0
    let lists_out := dent_order.map fun j => (inter.getD j ([], 0, none)).1
    let inv_dicts := inter.map fun t => t.2.2
    let inv_inds := build_inv_inds uinv dent_order (fun _ => none)
    (some inv_dicts, lists_out, out_dents, some inv_inds)

/-- Embedding of `inv_map_highdent_to_repeat` (io_symmetry.py lines 201-229):
each ligand occurrence is rebuilt either directly from the chosen row of its
(unrepeated) pseudo-ligand, or by looking the chosen row up in its group's
reverse dictionary and taking the component for this occurrence.  Python's
`KeyError`/`IndexError` on an impossible input is modelled by `none`. -/
def inv_map_highdent_to_repeat (incombo : List (List Nat))
    (inv_dicts : List (Option (List Nat → Option (List (List Nat)))))
    (inv_inds : List (Nat × Nat × Nat)) : Option (List (List Nat)) :=
  inv_inds.mapM fun t =>
    (inv_dicts.getD t.1 none).elim (incombo.get? t.2.1) fun d =>
      (incombo.get? t.2.1).bind fun row => (d row).bind fun combo => combo.get? t.2.2

/-- Environment for `NEB_setup`'s external calls.  Modelled from the spec:
`neb_align` is `io_align_mol.neb_align` (path-specific rigid-body alignment of
the final endpoint onto the initial one), `interp` gives the geometry ASE
`NEB.interpolate` computes for interior image `k`, and `engines` is the engine
oracle used when image `k` is evaluated through the Calculation Executor. -/
structure NEBEnv where
  neb_align : List Flt → List Flt → List Flt
  interp : Nat → List Flt
  engines : Nat → Engine

/-- Modelled from the spec: ASE `NEB.interpolate` replaces the geometries of
the interior images with interpolated ones; the two endpoint images are left
untouched. -/
def neb_interpolate (env : NEBEnv) (images : List Mol) : List Mol :=
  images.mapIdx fun k m =>
    if k = 0 ∨ k = images.length - 1 then m else { m with positions := env.interp k }

/-- Constructor arguments of `CalcExecutor(structure, method=m)` with every
other argument and the parameter mapping left at its default (io_calc.py
lines 77-85 and the `params` defaults of lines 27-74). -/
def default_exec_args (method : String) : ExecArgs :=
  { init_sanity_check := false, final_sanity_check := false, relax := false,
    assembly := false, method := method, ff_preopt_run := false,
    species_run := false, intermediate := none, skip_spin_assign := false,
    has_calculator := false, has_parameters := false,
    save_trajectories := false, assemble_sanity_checks := true,
    assemble_method := "GFN2-xTB", full_method := "GFN2-xTB",
    override_oxo_opt := false, force_oxo_relax := false,
    force_generation := false, freeze_molecule_add_species := false,
    species_method := "GFN2-xTB", species_relax := false,
    species_intermediate_method := "GFN2-xTB", species_intermediate_relax := false }

/-- Evaluation of each path image through the Calculation Executor
(io_neb.py lines 23-25): every image is run single-point at `neb_method` and
replaced by the executor's output structure. -/
def neb_eval_images (env : NEBEnv) (neb_method : String) :
    Nat → List Mol → Except String (List Mol)
  | _, [] => .ok []
  | k, m :: rest =>
    match calculate (CalcExecutor_resolve (default_exec_args neb_method)) m (env.engines k) with
    | .error e => .error e
    | .ok o =>
      match neb_eval_images env neb_method (k + 1) rest with
      | .error e => .error e
      | .ok os => .ok (o.mol :: os)

/-- Embedding of `NEB_setup` (io_neb.py lines 12-27): convert both endpoints,
align the final endpoint onto the initial one, build the chain
`[initial] ++ (nimages-2) copies of initial ++ [aligned final]`, interpolate
the interior geometries, and replace every image by its single-point-evaluated
structure.  The returned list is the final `neb.images`. -/
def NEB_setup (env : NEBEnv) (initial finalStruct : Mol) (nimages : Nat)
    (neb_method : String) : Except String (List Mol) :=
  let initial_mol := convert_io_molecule initial
  let final_mol := convert_io_molecule finalStruct
  let final_mol := { final_mol with
    positions := env.neb_align initial_mol.positions final_mol.positions }
  let images := [initial_mol] ++ ((List.range (nimages - 2)).map fun _ => initial_mol)
    ++ [final_mol]
  let images := neb_interpolate env images
  neb_eval_images env neb_method 0 images

/-- Numeric kernels for the vibrational analysis, kept abstract because the
source delegates them to numpy/ASE: inverse square root (`** -0.5`), square
root, symmetric eigendecomposition (eigenvalues with eigenvector matrix, used
both for the mass-weighted Hessian and for the 3x3 inertia tensor), complex
square root of a real (real and imaginary part), Euclidean vector norm, and
the two unit-conversion constants of the source. -/
structure VibEnv where
  rsqrt : ℚ → ℚ
  sqrtQ : ℚ → ℚ
  eigh : List (List ℚ) → List ℚ × List (List ℚ)
  eigh3 : List (List ℚ) → List ℚ × List (List ℚ)
  csqrt : ℚ → ℚ × ℚ
  vecnorm : List ℚ → ℚ
  unit_conversion : ℚ
  invcm : ℚ

/-- Transpose of a (rectangular, numeric) matrix stored as a row list. -/
def transposeL (m : List (List ℚ)) : List (List ℚ) :=
  (List.range (m.headD []).length).map fun j => m.map fun row => row.getD j 0

/-- Grouping of a flat row into consecutive coordinate triples (numpy's
reshape to `(n_atoms, 3)` of a length-`3*n_atoms` row). -/
def chunk3 : List α → List (List α)
  | a :: b :: c :: rest => [a, b, c] :: chunk3 rest
  | [] => []
  | l => [l]

/-- Atoms input to the vibrational analysis: per-atom masses and positions. -/
structure VibAtoms where
  masses : List ℚ
  positions : List (List ℚ)

/-- Embedding of the rotational/translational projection-basis construction of
`vibration_analysis` (vibrations_free_energy.py lines 64-97): center-of-mass,
inertia tensor, its eigenvectors `X`, and the 6-column basis `D` (three
mass-weighted translations, three Eckart-frame rotations).  The source builds
this matrix and never uses it. -/
def build_rot_trans_basis (env : VibEnv) (atoms : VibAtoms) : List (List ℚ) :=
  let masses := atoms.masses
  let positions := atoms.positions
  let mtot := masses.sum
  let weighted := List.zipWith (fun m p => p.map fun x => m * x) masses positions
  let r_COM := [((weighted.map fun p => p.getD 0 0).sum) / mtot,
                ((weighted.map fun p => p.getD 1 0).sum) / mtot,
                ((weighted.map fun p => p.getD 2 0).sum) / mtot]
  let centered := positions.map fun p => List.zipWith (fun x c => x - c) p r_COM
  let pairs := List.zipWith (fun (m : ℚ) (c : List ℚ) => (m, c)) masses centered
  let I00 := (pairs.map fun t => t.1 * ((t.2.getD 1 0) ^ 2 + (t.2.getD 2 0) ^ 2)).sum
  let I10 := (pairs.map fun t => -(t.1 * (t.2.getD 0 0 * t.2.getD 1 0))).sum
  let I20 := (pairs.map fun t => -(t.1 * (t.2.getD 0 0 * t.2.getD 2 0))).sum
  let I11 := (pairs.map fun t => t.1 * ((t.2.getD 0 0) ^ 2 + (t.2.getD 2 0) ^ 2)).sum
  let I22 := (pairs.map fun t => t.1 * ((t.2.getD 0 0) ^ 2 + (t.2.getD 1 0) ^ 2)).sum
  let I12 := (pairs.map fun t => -(t.1 * (t.2.getD 1 0 * t.2.getD 2 0))).sum
  let imat := [[I00, I10, I20], [I10, I11, I12], [I20, I12, I22]]
  let X := (env.eigh3 imat).2
  (List.range (3 * masses.length)).map fun r =>
    let i := r / 3
    let j := r % 3
    let mass_12 := env.sqrtQ (masses.getD i 0)
    let ci := centered.getD i []
    let dotRow := fun (k : Nat) => (List.zipWith (fun a b => a * b) ci (X.getD k [])).sum
    let xe := fun (a b : Nat) => (X.getD a []).getD b 0
    [if j = 0 then mass_12 else 0,
     if j = 1 then mass_12 else 0,
     if j = 2 then mass_12 else 0,
     mass_12 * (dotRow 1 * xe j 2 - dotRow 2 * xe j 1),
     mass_12 * (dotRow 2 * xe j 0 - dotRow 0 * xe j 2),
     mass_12 * (dotRow 0 * xe j 1 - dotRow 1 * xe j 0)]

/-- Result record of `vibration_analysis`: per-mode complex energies, the
selected mode shapes reshaped to (mode, atom, coordinate), complex force
constants, reduced masses, and complex frequencies. -/
structure VibOut where
  energies : List (ℚ × ℚ)
  modes : List (List (List ℚ))
  fconstants : List (ℚ × ℚ)
  rmasses : List ℚ
  frequencies : List (ℚ × ℚ)
deriving DecidableEq, Repr

/-- Embedding of `vibration_analysis` (vibrations_free_energy.py lines 8-135):
zero masses are a fatal input error; the Hessian is mass-weighted and
diagonalized; eigenvalues become complex energies, frequencies and force
constants; eigenvectors become the three mode-shape representations; the
rotational/translational projection basis is built when requested but never
applied (exactly as in the source); an unknown mode type is a fatal error. -/
def vibration_analysis (env : VibEnv) (atoms : VibAtoms) (hess : List (List ℚ))
    (project_out_rot_trans : Bool) (mode_type : String) : Except String VibOut :=
  if !(atoms.masses.all fun m => m ≠ 0) then
    .error "Zero mass encountered in one or more of the vibrated atoms."
  else
    let mass_weights := (atoms.masses.map env.rsqrt).flatMap fun w => [w, w, w]
    let mweight_H := hess.mapIdx fun i row =>
      row.mapIdx fun j x => mass_weights.getD j 0 * x * mass_weights.getD i 0
    let _rot_trans_basis : Option (List (List ℚ)) :=
      if project_out_rot_trans then some (build_rot_trans_basis env atoms) else none
    let ev := env.eigh mweight_H
    let eig_values := ev.1
    let eig_vectors := ev.2
    let energies := eig_values.map fun l =>
      ((env.csqrt l).1 * env.unit_conversion, (env.csqrt l).2 * env.unit_conversion)
    let frequencies := energies.map fun e => (e.1 / env.invcm, e.2 / env.invcm)
    let mw_normalized := transposeL eig_vectors
    let md_unnormalized := mw_normalized.map fun row =>
      List.zipWith (fun x w => x * w) row mass_weights
    let norm_factors := (transposeL md_unnormalized).map fun col => 1 / env.vecnorm col
    let md_normalized := md_unnormalized.map fun row =>
      List.zipWith (fun x nf => x * nf) row norm_factors
    let rmasses := norm_factors.map fun nf => nf ^ 2
    let fconstants := List.zipWith (fun (l rm : ℚ) => (l * rm, (0 : ℚ))) eig_values rmasses
    if mode_type = "direct_eigen_vectors" then
      .ok ⟨energies, mw_normalized.map chunk3, fconstants, rmasses, frequencies⟩
    else if mode_type = "mass_weighted_unnormalized" then
      .ok ⟨energies, md_unnormalized.map chunk3, fconstants, rmasses, frequencies⟩
    else if mode_type = "mass_weighted_normalized" then
      .ok ⟨energies, md_normalized.map chunk3, fconstants, rmasses, frequencies⟩
    else .error "Mode Type requested unknown."

/-- One entry of a ligand's `coordList`: either a plain coordinating-atom
index, or (when the caller pre-pinned the ligand) a `[atom, core-site]` pair
(the Python `isinstance(ligInput['coordList'][0], list)` test distinguishes
the two shapes). -/
inductive CoordEntry where
  | plain : Nat → CoordEntry
  | pinned : Nat → Nat → CoordEntry
deriving DecidableEq, Repr

/-- Ligand input dictionary as read by `select_cons`: connectivity string,
ligand-class tag, coordinating-atom list, and the optional pre-supplied
`possible_core_cons` key. -/
structure LigDict where
  smiles : String
  ligType : String
  coordList : List CoordEntry
  stored_core_cons : Option (List (List Nat))
deriving DecidableEq, Repr

/-- Decidable match for the force-trans-oxo branch of `select_cons` (source
lines 312-321): exactly one coordinating atom, not user-pinned, and the oxo
connectivity string. -/
def oxo_mono (lig : LigDict) : Bool :=
  match lig.coordList with
  | [CoordEntry.plain _] => lig.smiles = "[O-2]"
  | _ => false

/-- Embedding of the per-ligand possible-site-pattern resolution of
`select_cons` (io_symmetry.py lines 292-341) for one ligand.  `geo_map`
abstracts the external `core_geo_class.liglist_geo_map_dict` (ligand class to
core-type to admissible site patterns); `trans` is the running force-trans-oxo
counter.  Returns the admissible patterns, the recorded denticity, the
`goods` flag, and the updated counter; the `ValueError` for an unknown ligand
type is the `Except.error` case. -/
def resolve_lig_cons (geo_map : String → Option (String → Option (List (List Nat))))
    (coreType : String) (tmp_cn : Nat) (force_trans_oxos : Bool) (trans : Nat)
    (lig : LigDict) : Except String (List (List Nat) × Nat × Bool × Nat) :=
  if lig.coordList.length > 1 ∧ (geo_map lig.ligType).isSome then
    match geo_map lig.ligType with
    | some coreMap =>
      match coreMap coreType with
      | some possible_core_cons =>
          .ok (possible_core_cons, (possible_core_cons.headD []).length, true, trans)
      | none => .ok ([], 0, false, trans)
    | none => .ok ([], 0, false, trans)
  else if lig.coordList.length = 1 then
    match lig.coordList with
    | [CoordEntry.pinned _ site] => .ok ([[site]], 1, true, trans)
    | _ =>
      if lig.smiles = "[O-2]" ∧ force_trans_oxos then
        if trans = 0 then .ok ([[0]], 1, true, trans + 1)
        else .ok ([[1]], 1, true, trans + 1)
      else
        match lig.stored_core_cons with
        | some p => .ok (p, 1, true, trans)
        | none => .ok ((List.range tmp_cn).map fun x => [x], 1, true, trans)
  else if lig.ligType = "mono" ∧ lig.coordList.length > 1 then
    match lig.coordList with
    | CoordEntry.pinned _ _ :: _ =>
      if lig.coordList.all fun e => match e with | CoordEntry.pinned _ _ => true | _ => false then
        let p := [lig.coordList.filterMap fun e =>
          match e with | CoordEntry.pinned _ s => some s | _ => none]
        .ok (p, (p.headD []).length, true, trans)
      else .error "mixed coordList entry shapes"
    | _ =>
      match lig.stored_core_cons with
      | some p => .ok (p, (p.headD []).length, true, trans)
      | none => .error "possible_core_cons missing"
  else .error "not in known ligTypes"

/-- Embedding of the pattern-resolution loop of `select_cons` (io_symmetry.py
lines 289-345), threading the force-trans-oxo counter through the ligand list
and collecting the per-ligand patterns, denticities and `goods` flags (the
ligand charge / atom-count bookkeeping is external to this slice). -/
def resolve_all_lig_cons (geo_map : String → Option (String → Option (List (List Nat))))
    (coreType : String) (tmp_cn : Nat) (force_trans_oxos : Bool) :
    List LigDict → Nat → Except String (List (List (List Nat)) × List Nat × List Bool)
  | [], _ => .ok ([], [], [])
  | lig :: rest, tcount =>
    match resolve_lig_cons geo_map coreType tmp_cn force_trans_oxos tcount lig with
    | .error e => .error e
    | .ok r =>
      match resolve_all_lig_cons geo_map coreType tmp_cn force_trans_oxos rest r.2.2.2 with
      | .error e => .error e
      | .ok rs => .ok (r.1 :: rs.1, r.2.1 :: rs.2.1, r.2.2.1 :: rs.2.2)

@[simp] lemma convert_io_molecule_id (m : Mol) : convert_io_molecule m = m := rfl

@[simp] lemma dist_sanity_checks_dists_sane (m : Mol) :
    (dist_sanity_checks m).dists_sane = m.dist_check_ok := rfl

@[simp] lemma graph_sanity_checks_dists_sane (m : Mol) :
    (graph_sanity_checks m).dists_sane = m.dists_sane := rfl

@[simp] lemma dist_sanity_checks_positions (m : Mol) :
    (dist_sanity_checks m).positions = m.positions := rfl

@[simp] lemma graph_sanity_checks_positions (m : Mol) :
    (graph_sanity_checks m).positions = m.positions := rfl

@[simp] lemma calc_suggested_spin_positions (m : Mol) :
    (calc_suggested_spin m).positions = m.positions := rfl

@[simp] lemma swap_actinide_positions (m : Mol) :
    (swap_actinide m).positions = m.positions := by
  unfold swap_actinide; split <;> rfl

@[simp] lemma finish_up_energy (cfg : ExecCfg) (m : Mol) (st : RunState) :
    (finish_up cfg m st).energy = st.energy := rfl

@[simp] lemma finish_up_init_energy (cfg : ExecCfg) (m : Mol) (st : RunState) :
    (finish_up cfg m st).init_energy = st.init_energy := rfl

@[simp] lemma finish_up_errors (cfg : ExecCfg) (m : Mol) (st : RunState) :
    (finish_up cfg m st).errors = st.errors := rfl

@[simp] lemma finish_up_successful (cfg : ExecCfg) (m : Mol) (st : RunState) :
    (finish_up cfg m st).successful = st.successful := rfl

@[simp] lemma finish_up_done (cfg : ExecCfg) (m : Mol) (st : RunState) :
    (finish_up cfg m st).done = st.done := rfl

@[simp] lemma finish_up_method (cfg : ExecCfg) (m : Mol) (st : RunState) :
    (finish_up cfg m st).method = st.method := rfl

@[simp] lemma finish_up_relax (cfg : ExecCfg) (m : Mol) (st : RunState) :
    (finish_up cfg m st).relax = st.relax := rfl

/-- Decidable equality of modelled external-call results, for evaluating the
witness runs. -/
instance [DecidableEq e] [DecidableEq a] : DecidableEq (Except e a) := fun x y =>
  match x, y with
  | .error u, .error v => if h : u = v then .isTrue (by rw [h]) else .isFalse (by simp [h])
  | .error _, .ok _ => .isFalse (by simp)
  | .ok _, .error _ => .isFalse (by simp)
  | .ok u, .ok v => if h : u = v then .isTrue (by rw [h]) else .isFalse (by simp [h])

/-- Boolean success test on an `Except` result (whether the modelled external
call returned without raising). -/
def exOk : Except String α → Bool
  | .ok _ => true
  | .error _ => false

/-- The engine raised somewhere inside the non-force-field `try` block: during
the relaxation protocol this is any of the initial-energy read, the optimizer
run, the final-energy read or the re-alignment; during the single-point
protocol it is the single energy evaluation. -/
def attempt_raises (relax : Bool) (eng : Engine) : Bool :=
  if relax then
    !exOk eng.init_energy_res || !exOk eng.opt_run || !exOk eng.final_energy_res ||
      !exOk eng.align_res
  else !exOk eng.sp_energy_res

/-- The condition raised by the first failing step of the non-force-field
`try` block, if any. -/
def attempt_error (relax : Bool) (eng : Engine) : Option String :=
  if relax then
    match eng.init_energy_res with
    | .error e => some e
    | .ok _ =>
      match eng.opt_run with
      | .error e => some e
      | .ok _ =>
        match eng.final_energy_res with
        | .error e => some e
        | .ok _ =>
          match eng.align_res with
          | .error e => some e
          | .ok _ => none
  else
    match eng.sp_energy_res with
    | .error e => some e
    | .ok _ => none

/-- Whether the pre-evaluation gate of `calculate` lets the run proceed: with
initial sanity checking requested (and enabled) the minimum-distance verdict
decides; otherwise the structure's incoming `dists_sane` flag does. -/
def gate_passes (cfg : ExecCfg) (m : Mol) : Bool :=
  if cfg.init_sanity_check && cfg.assemble_sanity_checks then m.dist_check_ok else m.dists_sane

/-- Whether the run takes one of the two non-force-field engine paths (a
caller-supplied calculator with a method containing `custom`, or a method
containing `gfn` case-insensitively), in the source's branch order. -/
def non_ff_path (cfg : ExecCfg) : Bool :=
  (cfg.has_calculator && strContains cfg.method "custom") ||
    strContains (lowerStr cfg.method) "gfn"

/-- The relaxation flag after `engine_select`'s charge-mismatch handling: on
the `gfn` path a mismatch greater than 1 disables relaxation unless overridden
or forced; the `custom` path leaves it unchanged. -/
def resolved_relax (cfg : ExecCfg) (m : Mol) : Bool :=
  if cfg.has_calculator && strContains cfg.method "custom" then cfg.relax
  else if (m.xtb_charge - m.charge).natAbs > 1 then
    if ((!cfg.override_oxo_opt) || cfg.assembly) && (!cfg.force_oxo_relax) then false
    else cfg.relax
  else cfg.relax

/-- The method string after `engine_select`'s charge-mismatch handling: on
the `gfn` path an assembly run with a mismatch greater than 1 and
`force_oxo_relax` set is downgraded to `GFN-FF`; every other non-force-field
run keeps the configured method. -/
def resolved_method (cfg : ExecCfg) (m : Mol) : String :=
  if cfg.has_calculator && strContains cfg.method "custom" then cfg.method
  else if (m.xtb_charge - m.charge).natAbs > 1 then
    if ((!cfg.override_oxo_opt) || cfg.assembly) && (!cfg.force_oxo_relax) then cfg.method
    else if cfg.assembly then "GFN-FF" else cfg.method
  else cfg.method

lemma relax_attempt_fail (cfg : ExecCfg) (eng : Engine) (st : RunState)
    (hfail : attempt_raises true eng = true) :
    ∃ e, attempt_error true eng = some e ∧
      (relax_attempt cfg eng st).energy = some 10000 ∧
      (relax_attempt cfg eng st).init_energy = some 10000 ∧
      (relax_attempt cfg eng st).successful = st.successful ∧
      (relax_attempt cfg eng st).errors = st.errors ++ [e] := by
  unfold attempt_raises exOk at hfail
  unfold relax_attempt attempt_error
  cases h1 : eng.init_energy_res <;> cases h2 : eng.opt_run <;>
    cases h3 : eng.final_energy_res <;> cases h4 : eng.align_res <;>
    simp_all [sentinel_update]

lemma sp_attempt_fail (eng : Engine) (st : RunState)
    (hfail : attempt_raises false eng = true) :
    ∃ e, attempt_error false eng = some e ∧
      (sp_attempt eng st).energy = some 10000 ∧
      (sp_attempt eng st).init_energy = some 10000 ∧
      (sp_attempt eng st).successful = st.successful ∧
      (sp_attempt eng st).errors = st.errors ++ [e] := by
  unfold attempt_raises exOk at hfail
  unfold sp_attempt attempt_error
  cases h : eng.sp_energy_res <;> simp_all [sentinel_update]

lemma force_gen_fallback_keep (cfg : ExecCfg) (eng : Engine) (st : RunState)
    (hfg : cfg.force_generation = false ∨ exOk eng.fg_energy_res = false)
    (hsucc : st.successful = false) :
    ∃ tail, (force_gen_fallback cfg eng st).energy = st.energy ∧
      (force_gen_fallback cfg eng st).init_energy = st.init_energy ∧
      (force_gen_fallback cfg eng st).successful = false ∧
      (force_gen_fallback cfg eng st).errors = st.errors ++ tail := by
  unfold force_gen_fallback
  rcases hfg with hfg | hfg
  · simp [hfg, hsucc]
  · cases h : eng.fg_energy_res with
    | ok v => simp [exOk, h] at hfg
    | error e =>
      by_cases hgen : cfg.force_generation
      · exact ⟨[e], by simp [hsucc, hgen, h]⟩
      · simp [hsucc, hgen]

lemma relax_attempt_P (cfg : ExecCfg) (eng : Engine) (st : RunState) :
    (relax_attempt cfg eng st).successful = true →
      (relax_attempt cfg eng st).energy.isSome = true := by
  unfold relax_attempt
  cases eng.init_energy_res <;> cases eng.opt_run <;> cases eng.final_energy_res <;>
    cases eng.align_res <;> simp [sentinel_update]

lemma sp_attempt_P (eng : Engine) (st : RunState) :
    (sp_attempt eng st).successful = true → (sp_attempt eng st).energy.isSome = true := by
  unfold sp_attempt
  cases eng.sp_energy_res <;> simp [sentinel_update]

lemma obmol_relax_attempt_P (eng : Engine) (st : RunState)
    (h : st.successful = true → st.energy.isSome = true) :
    (obmol_relax_attempt eng st).successful = true →
      (obmol_relax_attempt eng st).energy.isSome = true := by
  unfold obmol_relax_attempt
  cases eng.obmol_energy_res <;> cases eng.obmol_opt_res <;>
    cases eng.obmol_align_res <;> simp_all

lemma obmol_sp_attempt_P (eng : Engine) (st : RunState)
    (h : st.successful = true → st.energy.isSome = true) :
    (obmol_sp_attempt eng st).successful = true →
      (obmol_sp_attempt eng st).energy.isSome = true := by
  unfold obmol_sp_attempt
  cases eng.obmol_energy_res <;> simp_all

lemma force_gen_fallback_P (cfg : ExecCfg) (eng : Engine) (st : RunState)
    (h : st.successful = true → st.energy.isSome = true) :
    (force_gen_fallback cfg eng st).successful = true →
      (force_gen_fallback cfg eng st).energy.isSome = true := by
  unfold force_gen_fallback
  split
  · cases eng.fg_energy_res <;> simp_all
  · exact h

lemma engine_select_ok_successful (cfg : ExecCfg) (st : RunState) (stb : RunState × Bool)
    (h : engine_select cfg st = .ok stb) : stb.1.successful = st.successful := by
  unfold engine_select at h
  split at h
  · rw [Except.ok.injEq] at h
    subst h
    rfl
  · split at h
    · rw [Except.ok.injEq] at h
      subst h
      simp only []
      split
      · split
        · rfl
        · split <;> rfl
      · rfl
    · split at h
      · rw [Except.ok.injEq] at h
        subst h
        rfl
      · exact absurd h (by simp)

@[simp] lemma set_constraint_successful (st : RunState) (b : Bool) :
    (set_constraint st b).successful = st.successful := rfl

@[simp] lemma set_constraint_energy (st : RunState) (b : Bool) :
    (set_constraint st b).energy = st.energy := rfl

@[simp] lemma set_constraint_init_energy (st : RunState) (b : Bool) :
    (set_constraint st b).init_energy = st.init_energy := rfl

@[simp] lemma set_constraint_errors (st : RunState) (b : Bool) :
    (set_constraint st b).errors = st.errors := rfl

@[simp] lemma set_constraint_method (st : RunState) (b : Bool) :
    (set_constraint st b).method = st.method := rfl

@[simp] lemma set_constraint_relax (st : RunState) (b : Bool) :
    (set_constraint st b).relax = st.relax := rfl

lemma dispatch_attempt_P (cfg : ExecCfg) (eng : Engine) (stb : RunState × Bool)
    (h : stb.1.successful = true → stb.1.energy.isSome = true) :
    (dispatch_attempt cfg eng stb).successful = true →
      (dispatch_attempt cfg eng stb).energy.isSome = true := by
  unfold dispatch_attempt
  by_cases hb : (!stb.2) = true
  · simp only [hb, if_true]
    by_cases hr : stb.1.relax = true
    · simp only [hr, if_true]
      by_cases hf : cfg.freeze_molecule_add_species = true
      · simp only [hf, if_true]
        intro h2
        simp only [set_constraint_successful] at h2
        simp only [set_constraint_energy]
        exact relax_attempt_P _ _ _ h2
      · simp only [hf, if_false]
        exact relax_attempt_P _ _ _
    · simp only [Bool.not_eq_true] at hr
      simp only [hr, Bool.false_eq_true, if_false]
      exact sp_attempt_P _ _
  · simp only [Bool.not_eq_true] at hb
    simp only [hb, Bool.false_eq_true, if_false]
    by_cases hr : stb.1.relax = true
    · simp only [hr, if_true]
      exact obmol_relax_attempt_P _ _ h
    · simp only [Bool.not_eq_true] at hr
      simp only [hr, Bool.false_eq_true, if_false]
      exact obmol_sp_attempt_P _ _ h

/-- C9: invariant of the Calculation Outcome — on every path of `calculate`
(non-force-field, force-field, and the force-generation fallback included),
`successful = true` implies that the outcome's energy field is set (not
`None`): the flag starts false and is set to true only right where an energy
value has been recorded. -/
theorem calc_successful_implies_energy (cfg : ExecCfg) (in_struct : Mol) (eng : Engine)
    (o : Outcome) (hok : calculate cfg in_struct eng = .ok o) (hs : o.successful = true) :
    o.energy.isSome = true := by
  unfold calculate at hok
  by_cases hg : (pre_mol cfg in_struct).dists_sane = true
  · simp only [hg, if_true] at hok
    rcases hsel : engine_select cfg (mk_init_state cfg
        (spin_mol cfg (pre_mol cfg in_struct))) with e | stb
    · rw [hsel] at hok
      exact absurd hok (by simp)
    · rw [hsel] at hok
      rw [Except.ok.injEq] at hok
      subst hok
      simp only [finish_up_successful, finish_up_energy] at hs ⊢
      revert hs
      apply force_gen_fallback_P
      refine dispatch_attempt_P cfg eng stb ?_
      rw [engine_select_ok_successful cfg _ stb hsel]
      simp [mk_init_state]
  · simp only [Bool.not_eq_true] at hg
    simp only [hg, Bool.false_eq_true, if_false] at hok
    rw [Except.ok.injEq] at hok
    subst hok
    simp [mk_init_state] at hs

/-- C7: the rotational/translational projection flag of `vibration_analysis`
is a no-op — for every numeric environment, atoms/Hessian input and mode type,
the call with `project_out_rot_trans = true` returns exactly the same
energies, modes, force constants, reduced masses and frequencies as the call
with `project_out_rot_trans = false`: the 6-column projection basis is
constructed but never applied to the mass-weighted Hessian before
diagonalization. -/
theorem vibration_project_flag_noop (env : VibEnv) (atoms : VibAtoms)
    (hess : List (List ℚ)) (mode_type : String) :
    vibration_analysis env atoms hess true mode_type
      = vibration_analysis env atoms hess false mode_type := rfl

/-- Concrete structure used by the witnesses: three finite coordinates, no
charge mismatch, all sanity verdicts positive. -/
def mStd : Mol :=
  { positions := [Flt.fin 0, Flt.fin 0, Flt.fin 0], charge := 0,
    xtb_charge := 0, uhf := 0, xtb_uhf := 0, suggested_uhf := 1, suggested_xtb_uhf := 1,
    dists_sane := true, dist_check_ok := true, graph_sane := true, graph_check_ok := true,
    chg0 := 0, mm0 := 0, constrained := false, swapped := false }

/-- Concrete engine oracle on which every external call succeeds. -/
def engStd : Engine :=
  { init_energy_res := .ok 1, opt_run := .ok (), final_energy_res := .ok 2,
    relaxed_positions := [Flt.fin 1, Flt.fin 0, Flt.fin 0],
    align_res := .ok ([Flt.fin 1, Flt.fin 0, Flt.fin 0], 3), sp_energy_res := .ok 5,
    obmol_energy_res := .ok 7, obmol_opt_res := .ok ([Flt.fin 2, Flt.fin 0, Flt.fin 0], 8),
    obmol_align_res := .ok ([Flt.fin 2, Flt.fin 0, Flt.fin 0], 9), fg_energy_res := .ok 11 }

/-- The configuration of a plain default single-point executor run at the
default method. -/
def cfgStd : ExecCfg := CalcExecutor_resolve (default_exec_args "GFN2-xTB")

/-- Outcome of the concrete default run (single-point, all calls succeed). -/
def outStd : Outcome := (calculate cfgStd mStd engStd).toOption.getD default

theorem calc_successful_implies_energy_witness :
    calculate cfgStd mStd engStd = .ok outStd ∧ outStd.successful = true ∧
      outStd.energy.isSome = true :=
  ⟨by decide, by decide,
    calc_successful_implies_energy cfgStd mStd engStd outStd (by decide) (by decide)⟩

/-- The default-run configuration with only `final_sanity_check` requested. -/
def cfgFinalChk : ExecCfg := { cfgStd with final_sanity_check := true }

/-- A structure whose minimum-distance check fails (two non-bonded atoms
closer than `full_min_dist_cutoff` times the sum of their covalent radii). -/
def mViolStd : Mol := { mStd with dist_check_ok := false }

/-- Outcome of a run with `final_sanity_check` on the violating structure. -/
def outFinalChk : Outcome := (calculate cfgFinalChk mViolStd engStd).toOption.getD default

/-- C2 counterexample: with only `final_sanity_check` requested on a
minimum-distance-violating structure, evaluation is NOT skipped — the engine
runs (single-point energy 5 is recorded), no error at all is recorded and the
run is marked done.  The gate that skips evaluation reads `init_sanity_check`
(source line 221), not `final_sanity_check`, so the claim as stated is false
at this input. -/
theorem calc_min_dist_final_check_cex :
    cfgFinalChk.final_sanity_check = true ∧ cfgFinalChk.init_sanity_check = false ∧
      mViolStd.dist_check_ok = false ∧
      calculate cfgFinalChk mViolStd engStd = .ok outFinalChk ∧
      outFinalChk.errors = [] ∧ outFinalChk.energy = some 5 ∧ outFinalChk.done = true :=
  ⟨rfl, rfl, rfl, by decide, by decide, by decide, by decide⟩

/-- C2 (amended): with `init_sanity_check` requested (and assembly-level
sanity checking enabled) on a structure whose minimum-distance check fails,
evaluation is skipped entirely — no engine is invoked (no energy of any kind
is recorded), the outcome records exactly one error, the source's message
`Min dist checks failed. Not evaluated`, and the outcome is marked incomplete
(`done` stays false) rather than failed. -/
theorem calc_min_dist_gate (cfg : ExecCfg) (in_struct : Mol) (eng : Engine) (o : Outcome)
    (h1 : cfg.init_sanity_check = true) (h2 : cfg.assemble_sanity_checks = true)
    (h3 : in_struct.dist_check_ok = false)
    (hok : calculate cfg in_struct eng = .ok o) :
    o.errors = ["Min dist checks failed. Not evaluated"] ∧ o.energy = none ∧
      o.init_energy = none ∧ o.done = false ∧ o.successful = false := by
  unfold calculate at hok
  have hg : (pre_mol cfg in_struct).dists_sane = false := by
    unfold pre_mol
    simp [h1, h2, h3]
  simp only [hg, Bool.false_eq_true, if_false] at hok
  rw [Except.ok.injEq] at hok
  subst hok
  simp [mk_init_state]

/-- The default-run configuration with `init_sanity_check` requested. -/
def cfgInitChk : ExecCfg := { cfgStd with init_sanity_check := true }

/-- Outcome of a gated run: `init_sanity_check` on the violating structure. -/
def outInitChk : Outcome := (calculate cfgInitChk mViolStd engStd).toOption.getD default

theorem calc_min_dist_gate_witness :
    cfgInitChk.init_sanity_check = true ∧ cfgInitChk.assemble_sanity_checks = true ∧
      mViolStd.dist_check_ok = false ∧
      calculate cfgInitChk mViolStd engStd = .ok outInitChk ∧
      (outInitChk.errors = ["Min dist checks failed. Not evaluated"] ∧
        outInitChk.energy = none ∧ outInitChk.init_energy = none ∧
        outInitChk.done = false ∧ outInitChk.successful = false) :=
  ⟨rfl, rfl, rfl, by decide,
    calc_min_dist_gate cfgInitChk mViolStd engStd outInitChk rfl rfl rfl (by decide)⟩

@[simp] lemma calc_suggested_spin_charge (m : Mol) : (calc_suggested_spin m).charge = m.charge := rfl

@[simp] lemma calc_suggested_spin_xtb_charge (m : Mol) :
    (calc_suggested_spin m).xtb_charge = m.xtb_charge := rfl

@[simp] lemma pre_mol_charge (cfg : ExecCfg) (m : Mol) : (pre_mol cfg m).charge = m.charge := by
  unfold pre_mol; split <;> rfl

@[simp] lemma pre_mol_xtb_charge (cfg : ExecCfg) (m : Mol) :
    (pre_mol cfg m).xtb_charge = m.xtb_charge := by
  unfold pre_mol; split <;> rfl

@[simp] lemma spin_mol_charge (cfg : ExecCfg) (m : Mol) : (spin_mol cfg m).charge = m.charge := by
  unfold spin_mol; split <;> rfl

@[simp] lemma spin_mol_xtb_charge (cfg : ExecCfg) (m : Mol) :
    (spin_mol cfg m).xtb_charge = m.xtb_charge := by
  unfold spin_mol; split <;> rfl

lemma pre_mol_dists_sane (cfg : ExecCfg) (m : Mol) :
    (pre_mol cfg m).dists_sane = gate_passes cfg m := by
  unfold pre_mol gate_passes; split <;> simp

lemma resolved_relax_charges (cfg : ExecCfg) (m m2 : Mol) (h1 : m.charge = m2.charge)
    (h2 : m.xtb_charge = m2.xtb_charge) : resolved_relax cfg m = resolved_relax cfg m2 := by
  unfold resolved_relax; rw [h1, h2]

lemma resolved_method_charges (cfg : ExecCfg) (m m2 : Mol) (h1 : m.charge = m2.charge)
    (h2 : m.xtb_charge = m2.xtb_charge) : resolved_method cfg m = resolved_method cfg m2 := by
  unfold resolved_method; rw [h1, h2]

lemma engine_select_nonff (cfg : ExecCfg) (st : RunState)
    (hmeth : st.method = cfg.method) (hrel : st.relax = cfg.relax)
    (hpath : non_ff_path cfg = true) :
    ∃ st2, engine_select cfg st = .ok (st2, false) ∧
      st2.relax = resolved_relax cfg st.mol ∧ st2.method = resolved_method cfg st.mol ∧
      st2.energy = st.energy ∧ st2.init_energy = st.init_energy ∧
      st2.errors = st.errors ∧ st2.successful = st.successful := by
  unfold engine_select resolved_relax resolved_method
  rw [hmeth]
  by_cases h1 : (cfg.has_calculator && strContains cfg.method "custom") = true
  · simp only [h1, if_true]
    exact ⟨_, rfl, hrel, rfl, rfl, rfl, rfl, rfl⟩
  · unfold non_ff_path at hpath
    rw [Bool.not_eq_true] at h1
    rw [h1] at hpath
    simp only [Bool.false_or] at hpath
    simp only [h1, Bool.false_eq_true, if_false, hpath, if_true]
    by_cases hmis : (st.mol.xtb_charge - st.mol.charge).natAbs > 1
    · simp only [hmis, if_true]
      by_cases hcond : (((!cfg.override_oxo_opt) || cfg.assembly) && (!cfg.force_oxo_relax)) = true
      · simp only [hcond, if_true]
        exact ⟨_, rfl, rfl, rfl, rfl, rfl, rfl, rfl⟩
      · simp only [hcond, Bool.false_eq_true, if_false]
        by_cases hasm : cfg.assembly = true
        · simp only [hasm, if_true]
          exact ⟨_, rfl, hrel, rfl, rfl, rfl, rfl, rfl⟩
        · simp only [hasm, Bool.false_eq_true, if_false]
          exact ⟨_, rfl, hrel, hmeth, rfl, rfl, rfl, rfl⟩
    · simp only [hmis, if_false]
      exact ⟨_, rfl, hrel, hmeth, rfl, rfl, rfl, rfl⟩

lemma relax_attempt_method (cfg : ExecCfg) (eng : Engine) (st : RunState) :
    (relax_attempt cfg eng st).method = st.method := by
  unfold relax_attempt sentinel_update
  cases eng.init_energy_res <;> cases eng.opt_run <;> cases eng.final_energy_res <;>
    cases eng.align_res <;> rfl

lemma relax_attempt_relax (cfg : ExecCfg) (eng : Engine) (st : RunState) :
    (relax_attempt cfg eng st).relax = st.relax := by
  unfold relax_attempt sentinel_update
  cases eng.init_energy_res <;> cases eng.opt_run <;> cases eng.final_energy_res <;>
    cases eng.align_res <;> rfl

lemma sp_attempt_method (eng : Engine) (st : RunState) :
    (sp_attempt eng st).method = st.method := by
  unfold sp_attempt sentinel_update
  cases eng.sp_energy_res <;> rfl

lemma sp_attempt_relax (eng : Engine) (st : RunState) :
    (sp_attempt eng st).relax = st.relax := by
  unfold sp_attempt sentinel_update
  cases eng.sp_energy_res <;> rfl

lemma obmol_relax_attempt_method (eng : Engine) (st : RunState) :
    (obmol_relax_attempt eng st).method = st.method := by
  unfold obmol_relax_attempt
  cases eng.obmol_energy_res <;> cases eng.obmol_opt_res <;> cases eng.obmol_align_res <;> rfl

lemma obmol_relax_attempt_relax (eng : Engine) (st : RunState) :
    (obmol_relax_attempt eng st).relax = st.relax := by
  unfold obmol_relax_attempt
  cases eng.obmol_energy_res <;> cases eng.obmol_opt_res <;> cases eng.obmol_align_res <;> rfl

lemma obmol_sp_attempt_method (eng : Engine) (st : RunState) :
    (obmol_sp_attempt eng st).method = st.method := by
  unfold obmol_sp_attempt
  cases eng.obmol_energy_res <;> rfl

lemma obmol_sp_attempt_relax (eng : Engine) (st : RunState) :
    (obmol_sp_attempt eng st).relax = st.relax := by
  unfold obmol_sp_attempt
  cases eng.obmol_energy_res <;> rfl

lemma dispatch_attempt_method (cfg : ExecCfg) (eng : Engine) (stb : RunState × Bool) :
    (dispatch_attempt cfg eng stb).method = stb.1.method := by
  unfold dispatch_attempt
  by_cases hb : (!stb.2) = true
  · simp only [hb, if_true]
    by_cases hr : stb.1.relax = true
    · simp only [hr, if_true]
      by_cases hf : cfg.freeze_molecule_add_species = true
      · simp only [hf, if_true, set_constraint_method, relax_attempt_method]
        split <;> simp [set_constraint_method]
      · simp only [hf, Bool.false_eq_true, if_false, relax_attempt_method]
        split <;> simp [set_constraint_method]
    · simp only [Bool.not_eq_true] at hr
      simp only [hr, Bool.false_eq_true, if_false, sp_attempt_method]
  · simp only [Bool.not_eq_true] at hb
    simp only [hb, Bool.false_eq_true, if_false]
    split
    · exact obmol_relax_attempt_method _ _
    · exact obmol_sp_attempt_method _ _

lemma dispatch_attempt_relax (cfg : ExecCfg) (eng : Engine) (stb : RunState × Bool) :
    (dispatch_attempt cfg eng stb).relax = stb.1.relax := by
  unfold dispatch_attempt
  by_cases hb : (!stb.2) = true
  · simp only [hb, if_true]
    by_cases hr : stb.1.relax = true
    · simp only [hr, if_true]
      by_cases hf : cfg.freeze_molecule_add_species = true
      · simp only [hf, if_true, set_constraint_relax, relax_attempt_relax]
        split <;> simp [set_constraint_relax, hr]
      · simp only [hf, Bool.false_eq_true, if_false, relax_attempt_relax]
        split <;> simp [set_constraint_relax, hr]
    · simp only [Bool.not_eq_true] at hr
      simp only [hr, Bool.false_eq_true, if_false, sp_attempt_relax]
  · simp only [Bool.not_eq_true] at hb
    simp only [hb, Bool.false_eq_true, if_false]
    split
    · exact obmol_relax_attempt_relax _ _
    · exact obmol_sp_attempt_relax _ _

lemma force_gen_fallback_method (cfg : ExecCfg) (eng : Engine) (st : RunState) :
    (force_gen_fallback cfg eng st).method = st.method := by
  unfold force_gen_fallback
  split
  · cases eng.fg_energy_res <;> rfl
  · rfl

lemma force_gen_fallback_relax (cfg : ExecCfg) (eng : Engine) (st : RunState) :
    (force_gen_fallback cfg eng st).relax = st.relax := by
  unfold force_gen_fallback
  split
  · cases eng.fg_energy_res <;> rfl
  · rfl

lemma freeze_after_energy (cfg : ExecCfg) (st : RunState) :
    (if cfg.freeze_molecule_add_species then set_constraint st false else st).energy
      = st.energy := by split <;> rfl

lemma freeze_after_init_energy (cfg : ExecCfg) (st : RunState) :
    (if cfg.freeze_molecule_add_species then set_constraint st false else st).init_energy
      = st.init_energy := by split <;> rfl

lemma freeze_after_successful (cfg : ExecCfg) (st : RunState) :
    (if cfg.freeze_molecule_add_species then set_constraint st false else st).successful
      = st.successful := by split <;> rfl

lemma freeze_after_errors (cfg : ExecCfg) (st : RunState) :
    (if cfg.freeze_molecule_add_species then set_constraint st false else st).errors
      = st.errors := by split <;> rfl

lemma dispatch_attempt_nonff_relax (cfg : ExecCfg) (eng : Engine) (st2 : RunState)
    (hr : st2.relax = true) :
    dispatch_attempt cfg eng (st2, false) =
      (if cfg.freeze_molecule_add_species then
        set_constraint (relax_attempt cfg eng
          (if cfg.freeze_molecule_add_species && !(strContains st2.method "custom") then
            set_constraint st2 true else st2)) false
      else relax_attempt cfg eng
          (if cfg.freeze_molecule_add_species && !(strContains st2.method "custom") then
            set_constraint st2 true else st2)) := by
  unfold dispatch_attempt
  simp only [hr, Bool.not_false, eq_self_iff_true, if_true]

lemma dispatch_attempt_nonff_sp (cfg : ExecCfg) (eng : Engine) (st2 : RunState)
    (hr : st2.relax = false) :
    dispatch_attempt cfg eng (st2, false) = sp_attempt eng st2 := by
  unfold dispatch_attempt
  simp only [hr, Bool.not_false, eq_self_iff_true, if_true, Bool.false_eq_true, if_false]

lemma dispatch_attempt_fail (cfg : ExecCfg) (eng : Engine) (st2 : RunState)
    (hfail : attempt_raises st2.relax eng = true) :
    ∃ e, attempt_error st2.relax eng = some e ∧
      (dispatch_attempt cfg eng (st2, false)).energy = some 10000 ∧
      (dispatch_attempt cfg eng (st2, false)).init_energy = some 10000 ∧
      (dispatch_attempt cfg eng (st2, false)).successful = st2.successful ∧
      (dispatch_attempt cfg eng (st2, false)).errors = st2.errors ++ [e] := by
  by_cases hr : st2.relax = true
  · rw [hr] at hfail
    rw [dispatch_attempt_nonff_relax cfg eng st2 hr]
    obtain ⟨e, he, h1, h2, h3, h4⟩ := relax_attempt_fail cfg eng
      (if cfg.freeze_molecule_add_species && !(strContains st2.method "custom") then
        set_constraint st2 true else st2) hfail
    have hsucc3 : (if cfg.freeze_molecule_add_species && !(strContains st2.method "custom") then
        set_constraint st2 true else st2).successful = st2.successful := by split <;> rfl
    have herr3 : (if cfg.freeze_molecule_add_species && !(strContains st2.method "custom") then
        set_constraint st2 true else st2).errors = st2.errors := by split <;> rfl
    refine ⟨e, hr ▸ he, ?_, ?_, ?_, ?_⟩
    · rw [freeze_after_energy, h1]
    · rw [freeze_after_init_energy, h2]
    · rw [freeze_after_successful, h3, hsucc3]
    · rw [freeze_after_errors, h4, herr3]
  · simp only [Bool.not_eq_true] at hr
    rw [hr] at hfail
    rw [dispatch_attempt_nonff_sp cfg eng st2 hr]
    obtain ⟨e, he, h1, h2, h3, h4⟩ := sp_attempt_fail eng st2 hfail
    exact ⟨e, hr ▸ he, h1, h2, h3, h4⟩

@[simp] lemma done_update_energy (st : RunState) :
    ({ st with done := true } : RunState).energy = st.energy := rfl

@[simp] lemma done_update_init_energy (st : RunState) :
    ({ st with done := true } : RunState).init_energy = st.init_energy := rfl

@[simp] lemma done_update_successful (st : RunState) :
    ({ st with done := true } : RunState).successful = st.successful := rfl

@[simp] lemma done_update_errors (st : RunState) :
    ({ st with done := true } : RunState).errors = st.errors := rfl

@[simp] lemma done_update_method (st : RunState) :
    ({ st with done := true } : RunState).method = st.method := rfl

@[simp] lemma done_update_relax (st : RunState) :
    ({ st with done := true } : RunState).relax = st.relax := rfl

lemma calculate_nonff_shape (cfg : ExecCfg) (in_struct : Mol) (eng : Engine) (o : Outcome)
    (hpath : non_ff_path cfg = true) (hgate : gate_passes cfg in_struct = true)
    (hok : calculate cfg in_struct eng = .ok o) :
    ∃ st2, engine_select cfg (mk_init_state cfg (spin_mol cfg (pre_mol cfg in_struct)))
        = .ok (st2, false) ∧
      st2.successful = false ∧ st2.errors = [] ∧ st2.energy = none ∧ st2.init_energy = none ∧
      st2.relax = resolved_relax cfg in_struct ∧ st2.method = resolved_method cfg in_struct ∧
      o = finish_up cfg in_struct
        { force_gen_fallback cfg eng (dispatch_attempt cfg eng (st2, false)) with
          done := true } := by
  have hg : (pre_mol cfg in_struct).dists_sane = true := by
    rw [pre_mol_dists_sane, hgate]
  unfold calculate at hok
  simp only [hg, if_true] at hok
  obtain ⟨st2, hsel, hrel2, hmeth2, hen, hin, herr, hsucc⟩ :=
    engine_select_nonff cfg (mk_init_state cfg (spin_mol cfg (pre_mol cfg in_struct)))
      rfl rfl hpath
  rw [hsel] at hok
  dsimp only at hok
  rw [Except.ok.injEq] at hok
  have hcg : resolved_relax cfg (spin_mol cfg (pre_mol cfg in_struct))
      = resolved_relax cfg in_struct :=
    resolved_relax_charges _ _ _ (by simp) (by simp)
  have hcm : resolved_method cfg (spin_mol cfg (pre_mol cfg in_struct))
      = resolved_method cfg in_struct :=
    resolved_method_charges _ _ _ (by simp) (by simp)
  exact ⟨st2, hsel, hsucc, herr, hen, hin, hrel2.trans hcg, hmeth2.trans hcm, hok.symm⟩

/-- C1 (amended): whenever a `calculate` run on a non-force-field engine path
(`gfn` or calculator-plus-`custom` method) that passes the pre-evaluation gate
has its engine raise during the relaxation or single-point `try` block, and
the force-generation fallback does not subsequently succeed (it is unset or
its own force-field call also raises), the outcome has energy exactly 10000
and initial energy exactly 10000, the successful flag is false, and the first
recorded error is exactly the raised condition; the hypothesis
`calculate cfg in_struct eng = .ok o` itself is the fact that no exception
propagates out of construction on this path. -/
theorem calc_nonff_failure_sentinel (cfg : ExecCfg) (in_struct : Mol) (eng : Engine)
    (o : Outcome)
    (hpath : non_ff_path cfg = true)
    (hgate : gate_passes cfg in_struct = true)
    (hfail : attempt_raises (resolved_relax cfg in_struct) eng = true)
    (hfg : cfg.force_generation = false ∨ exOk eng.fg_energy_res = false)
    (hok : calculate cfg in_struct eng = .ok o) :
    o.energy = some 10000 ∧ o.init_energy = some 10000 ∧ o.successful = false ∧
      o.errors.head? = attempt_error (resolved_relax cfg in_struct) eng := by
  obtain ⟨st2, hsel, hsucc, herr, hen, hin, hrel, hmeth, ho⟩ :=
    calculate_nonff_shape cfg in_struct eng o hpath hgate hok
  rw [← hrel] at hfail
  obtain ⟨e, he, d1, d2, d3, d4⟩ := dispatch_attempt_fail cfg eng st2 hfail
  obtain ⟨tail, f1, f2, f3, f4⟩ := force_gen_fallback_keep cfg eng
    (dispatch_attempt cfg eng (st2, false)) hfg (by rw [d3, hsucc])
  subst ho
  refine ⟨?_, ?_, ?_, ?_⟩
  · simp only [finish_up_energy, done_update_energy]
    rw [f1, d1]
  · simp only [finish_up_init_energy, done_update_init_energy]
    rw [f2, d2]
  · simp only [finish_up_successful, done_update_successful]
    exact f3
  · simp only [finish_up_errors, done_update_errors]
    rw [f4, d4, herr, ← hrel, he]
    simp

/-- A single-point engine failure: the xTB energy evaluation raises. -/
def engSPfail : Engine :=
  { engStd with sp_energy_res := .error "xtb calculation failed",
                fg_energy_res := .ok 11 }

/-- Outcome of the default run on the failing engine. -/
def outSPfail : Outcome := (calculate cfgStd mStd engSPfail).toOption.getD default

theorem calc_nonff_failure_sentinel_witness :
    non_ff_path cfgStd = true ∧ gate_passes cfgStd mStd = true ∧
      attempt_raises (resolved_relax cfgStd mStd) engSPfail = true ∧
      cfgStd.force_generation = false ∧
      calculate cfgStd mStd engSPfail = .ok outSPfail ∧
      (outSPfail.energy = some 10000 ∧ outSPfail.init_energy = some 10000 ∧
        outSPfail.successful = false ∧
        outSPfail.errors.head? = attempt_error (resolved_relax cfgStd mStd) engSPfail) :=
  ⟨by decide, by decide, by decide, by decide, by decide,
    calc_nonff_failure_sentinel cfgStd mStd engSPfail outSPfail (by decide) (by decide)
      (by decide) (Or.inl (by decide)) (by decide)⟩

/-- The default single-point configuration with `force_generation` set. -/
def cfgForceGen : ExecCfg := { cfgStd with force_generation := true }

/-- Outcome of the force-generation run on the failing engine. -/
def outForceGen : Outcome := (calculate cfgForceGen mStd engSPfail).toOption.getD default

/-- C1 counterexample: on the `gfn` path with the engine raising during the
single-point evaluation but with `force_generation` set and the force-field
fallback succeeding, the outcome's energy is the fallback energy 11 (not the
10000 sentinel), its initial energy is 11, and `successful` is true — so the
claim as stated (over every non-force-field run in which the engine raises)
is false at this input; the raised condition is still recorded. -/
theorem calc_nonff_failure_force_generation_cex :
    non_ff_path cfgForceGen = true ∧ gate_passes cfgForceGen mStd = true ∧
      attempt_raises (resolved_relax cfgForceGen mStd) engSPfail = true ∧
      calculate cfgForceGen mStd engSPfail = .ok outForceGen ∧
      outForceGen.energy = some 11 ∧ outForceGen.init_energy = some 11 ∧
      outForceGen.successful = true ∧
      outForceGen.errors = ["xtb calculation failed"] :=
  ⟨by decide, by decide, by decide, by decide, by decide, by decide, by decide, by decide⟩

/-- C5 (amended): for an assembly-stage evaluation on the `gfn` path with the
engine-specific charge differing from the nominal formal charge by more than
1, the method is downgraded to `GFN-FF` only when `force_oxo_relax` is set
(making the first mismatch condition of source line 252 false); in the
ordinary assembly case (`force_oxo_relax` unset) the executor instead
disables relaxation and keeps the configured method, because
`(not override_oxo_opt) or assembly` is always true under `assembly`, so the
`elif self.assembly` downgrade branch is unreachable. -/
theorem calc_assembly_mismatch_downgrade (cfg : ExecCfg) (in_struct : Mol) (eng : Engine)
    (o : Outcome)
    (hasm : cfg.assembly = true)
    (hnc : (cfg.has_calculator && strContains cfg.method "custom") = false)
    (hgfn : strContains (lowerStr cfg.method) "gfn" = true)
    (hmis : (in_struct.xtb_charge - in_struct.charge).natAbs > 1)
    (hgate : gate_passes cfg in_struct = true)
    (hok : calculate cfg in_struct eng = .ok o) :
    (cfg.force_oxo_relax = true → o.method = "GFN-FF") ∧
    (cfg.force_oxo_relax = false → o.method = cfg.method ∧ o.relax = false) := by
  have hpath : non_ff_path cfg = true := by
    unfold non_ff_path
    rw [hnc, hgfn]
    rfl
  obtain ⟨st2, hsel, hsucc, herr, hen, hin, hrel, hmeth, ho⟩ :=
    calculate_nonff_shape cfg in_struct eng o hpath hgate hok
  have homethod : o.method = resolved_method cfg in_struct := by
    subst ho
    simp only [finish_up_method, done_update_method]
    rw [force_gen_fallback_method, dispatch_attempt_method]
    exact hmeth
  have horelax : o.relax = resolved_relax cfg in_struct := by
    subst ho
    simp only [finish_up_relax, done_update_relax]
    rw [force_gen_fallback_relax, dispatch_attempt_relax]
    exact hrel
  constructor
  · intro hfox
    rw [homethod]
    unfold resolved_method
    simp [hnc, hmis, hfox, hasm]
  · intro hfox
    refine ⟨?_, ?_⟩
    · rw [homethod]
      unfold resolved_method
      simp [hnc, hmis, hfox, hasm]
    · rw [horelax]
      unfold resolved_relax
      simp [hnc, hmis, hfox, hasm]

/-- The resolved configuration of an assembly-stage executor constructed with
`assembly=True` and otherwise-default arguments. -/
def cfgAsm : ExecCfg :=
  CalcExecutor_resolve { default_exec_args "GFN2-xTB" with assembly := true }

/-- A structure whose engine-specific charge differs from its formal charge
by 3. -/
def mMis : Mol := { mStd with xtb_charge := 3 }

/-- Outcome of the assembly run on the mismatched structure. -/
def outAsm : Outcome := (calculate cfgAsm mMis engStd).toOption.getD default

/-- C5 counterexample: a default assembly-stage `gfn` evaluation on a
structure with charge mismatch 3 keeps method `GFN2-xTB` (it is NOT downgraded
to `GFN-FF`; instead the engine-specific charge 3 is still written to the
calculator's charge vector and relaxation is disabled), so the claim as
stated is false at this input. -/
theorem calc_assembly_mismatch_cex :
    cfgAsm.assembly = true ∧
      strContains (lowerStr cfgAsm.method) "gfn" = true ∧
      (mMis.xtb_charge - mMis.charge).natAbs > 1 ∧
      calculate cfgAsm mMis engStd = .ok outAsm ∧
      outAsm.method = "GFN2-xTB" ∧ outAsm.method ≠ "GFN-FF" ∧
      outAsm.mol.chg0 = 3 :=
  ⟨rfl, by decide, by decide, by decide, by decide, by decide, by decide⟩

/-- The assembly configuration with `force_oxo_relax` additionally set (the
source reaches this via a `force_oxo_relax` parameter override). -/
def cfgAsmFox : ExecCfg := { cfgAsm with force_oxo_relax := true }

/-- Outcome of the forced-oxo-relax assembly run on the mismatched
structure. -/
def outAsmFox : Outcome := (calculate cfgAsmFox mMis engStd).toOption.getD default

theorem calc_assembly_mismatch_downgrade_witness :
    cfgAsmFox.assembly = true ∧
      (cfgAsmFox.has_calculator && strContains cfgAsmFox.method "custom") = false ∧
      strContains (lowerStr cfgAsmFox.method) "gfn" = true ∧
      (mMis.xtb_charge - mMis.charge).natAbs > 1 ∧
      gate_passes cfgAsmFox mMis = true ∧
      calculate cfgAsmFox mMis engStd = .ok outAsmFox ∧
      cfgAsmFox.force_oxo_relax = true ∧ outAsmFox.method = "GFN-FF" :=
  ⟨rfl, by decide, by decide, by decide, by decide, by decide, rfl,
    (calc_assembly_mismatch_downgrade cfgAsmFox mMis engStd outAsmFox rfl (by decide)
      (by decide) (by decide) (by decide) (by decide)).1 rfl⟩

lemma finish_up_mol (cfg : ExecCfg) (in_struct : Mol) (st : RunState) :
    (finish_up cfg in_struct st).mol =
      if (post_mol cfg st).positions.any Flt.isnan then
        calc_suggested_spin (convert_io_molecule in_struct)
      else post_mol cfg st := rfl

lemma post_mol_positions (cfg : ExecCfg) (st : RunState) :
    (post_mol cfg st).positions = st.mol.positions := by
  unfold post_mol
  split <;> simp

lemma finish_up_nan (cfg : ExecCfg) (in_struct : Mol) (st : RunState)
    (h : (finish_up cfg in_struct st).mol.positions.any Flt.isnan = true) :
    (finish_up cfg in_struct st).mol = calc_suggested_spin (convert_io_molecule in_struct) := by
  rw [finish_up_mol] at h ⊢
  by_cases hp : (post_mol cfg st).positions.any Flt.isnan = true
  · rw [if_pos hp]
  · rw [if_neg hp] at h
    exact absurd h hp

lemma calculate_ok_finish (cfg : ExecCfg) (in_struct : Mol) (eng : Engine) (o : Outcome)
    (hok : calculate cfg in_struct eng = .ok o) :
    ∃ st, o = finish_up cfg in_struct st := by
  unfold calculate at hok
  by_cases hg : (pre_mol cfg in_struct).dists_sane = true
  · simp only [hg, if_true] at hok
    rcases hsel : engine_select cfg (mk_init_state cfg (spin_mol cfg (pre_mol cfg in_struct)))
      with e | stb
    · rw [hsel] at hok
      exact absurd hok (by simp)
    · rw [hsel] at hok
      dsimp only at hok
      rw [Except.ok.injEq] at hok
      exact ⟨_, hok.symm⟩
  · simp only [Bool.not_eq_true] at hg
    simp only [hg, Bool.false_eq_true, if_false] at hok
    rw [Except.ok.injEq] at hok
    exact ⟨_, hok.symm⟩

/-- C4 (amended): the post-evaluation corruption guard fires exactly on NaN
coordinates (source line 387 tests `np.isnan`; infinite coordinates are not
caught).  First conjunct: if the executor state at the end of evaluation has
any NaN coordinate, the finishing step discards that structure and rebuilds it
as a fresh conversion of the original input with its suggested spin
re-derived.  Second conjunct: consequently a structure returned by any
`calculate` run that still contains a NaN coordinate is exactly that rebuilt
input structure — a NaN-corrupted relaxed geometry is never returned. -/
theorem calc_nan_guard :
    (∀ (cfg : ExecCfg) (in_struct : Mol) (st : RunState),
      st.mol.positions.any Flt.isnan = true →
        (finish_up cfg in_struct st).mol
          = calc_suggested_spin (convert_io_molecule in_struct)) ∧
    (∀ (cfg : ExecCfg) (in_struct : Mol) (eng : Engine) (o : Outcome),
      calculate cfg in_struct eng = .ok o →
      o.mol.positions.any Flt.isnan = true →
        o.mol = calc_suggested_spin (convert_io_molecule in_struct)) := by
  constructor
  · intro cfg in_struct st h
    have hp : (post_mol cfg st).positions.any Flt.isnan = true := by
      rw [post_mol_positions]
      exact h
    rw [finish_up_mol, if_pos hp]
  · intro cfg in_struct eng o hok h
    obtain ⟨st, rfl⟩ := calculate_ok_finish cfg in_struct eng o hok
    exact finish_up_nan cfg in_struct st h

/-- The default configuration with relaxation requested. -/
def cfgRel : ExecCfg := { cfgStd with relax := true }

/-- An engine whose successful relaxation produces an infinite (but not NaN)
coordinate. -/
def engInf : Engine :=
  { engStd with relaxed_positions := [Flt.inf, Flt.fin 0, Flt.fin 0],
                align_res := .ok ([Flt.inf, Flt.fin 0, Flt.fin 0], 1) }

/-- Outcome of the relaxation run producing an infinite coordinate. -/
def outInf : Outcome := (calculate cfgRel mStd engInf).toOption.getD default

/-- C4 counterexample: a relaxation that succeeds but produces an infinite
coordinate is NOT discarded — the returned structure keeps the corrupted
geometry `[inf, 0, 0]` and is not coordinate-identical to the original input
`[0, 0, 0]`, because the source's guard tests only `np.isnan` and
`isnan(inf)` is false.  The claim ("any non-finite coordinate (NaN or
infinite)") is therefore false at this input. -/
theorem calc_inf_guard_cex :
    calculate cfgRel mStd engInf = .ok outInf ∧
      outInf.mol.positions = [Flt.inf, Flt.fin 0, Flt.fin 0] ∧
      mStd.positions = [Flt.fin 0, Flt.fin 0, Flt.fin 0] ∧
      outInf.mol.positions ≠ mStd.positions ∧
      outInf.mol.positions.any Flt.isnan = false :=
  ⟨by decide, by decide, rfl, by decide, by decide⟩

/-- An engine whose successful relaxation produces a NaN coordinate. -/
def engNan : Engine :=
  { engStd with relaxed_positions := [Flt.nan, Flt.fin 0, Flt.fin 0],
                align_res := .ok ([Flt.nan, Flt.fin 0, Flt.fin 0], 1) }

/-- Outcome of the relaxation run producing a NaN coordinate. -/
def outNan : Outcome := (calculate cfgRel mStd engNan).toOption.getD default

/-- A post-evaluation executor state whose geometry contains a NaN
coordinate. -/
def stNan : RunState :=
  { mol := { mStd with positions := [Flt.nan, Flt.fin 0, Flt.fin 0] },
    energy := some 2, init_energy := some 1, errors := [], successful := true,
    trajectory := none, rmsd := some 1, done := true, method := "GFN2-xTB", relax := true }

theorem calc_nan_guard_witness :
    stNan.mol.positions.any Flt.isnan = true ∧
      (finish_up cfgRel mStd stNan).mol = calc_suggested_spin (convert_io_molecule mStd) ∧
      calculate cfgRel mStd engNan = .ok outNan ∧
      outNan.mol.positions = mStd.positions :=
  ⟨by decide, calc_nan_guard.1 cfgRel mStd stNan (by decide), by decide, by decide⟩

lemma engine_select_ok_mol_positions (cfg : ExecCfg) (st : RunState) (stb : RunState × Bool)
    (h : engine_select cfg st = .ok stb) : stb.1.mol.positions = st.mol.positions := by
  unfold engine_select at h
  split at h
  · rw [Except.ok.injEq] at h
    subst h
    rfl
  · split at h
    · rw [Except.ok.injEq] at h
      subst h
      simp only []
      split
      · split
        · rfl
        · split <;> rfl
      · rfl
    · split at h
      · rw [Except.ok.injEq] at h
        subst h
        rfl
      · exact absurd h (by simp)

lemma engine_select_ok_relax_false (cfg : ExecCfg) (st : RunState) (stb : RunState × Bool)
    (h : engine_select cfg st = .ok stb) (hr : st.relax = false) : stb.1.relax = false := by
  unfold engine_select at h
  split at h
  · rw [Except.ok.injEq] at h
    subst h
    exact hr
  · split at h
    · rw [Except.ok.injEq] at h
      subst h
      simp only []
      split
      · split
        · rfl
        · split <;> exact hr
      · exact hr
    · split at h
      · rw [Except.ok.injEq] at h
        subst h
        exact hr
      · exact absurd h (by simp)

lemma sp_attempt_positions (eng : Engine) (st : RunState) :
    (sp_attempt eng st).mol.positions = st.mol.positions := by
  unfold sp_attempt sentinel_update
  cases eng.sp_energy_res <;> rfl

lemma obmol_sp_attempt_positions (eng : Engine) (st : RunState) :
    (obmol_sp_attempt eng st).mol.positions = st.mol.positions := by
  unfold obmol_sp_attempt
  cases eng.obmol_energy_res <;> rfl

lemma force_gen_fallback_positions (cfg : ExecCfg) (eng : Engine) (st : RunState) :
    (force_gen_fallback cfg eng st).mol.positions = st.mol.positions := by
  unfold force_gen_fallback
  split
  · cases eng.fg_energy_res <;> rfl
  · rfl

lemma dispatch_attempt_positions_norelax (cfg : ExecCfg) (eng : Engine) (stb : RunState × Bool)
    (hr : stb.1.relax = false) :
    (dispatch_attempt cfg eng stb).mol.positions = stb.1.mol.positions := by
  unfold dispatch_attempt
  by_cases hb : (!stb.2) = true
  · simp only [hb, if_true, hr, Bool.false_eq_true, if_false]
    exact sp_attempt_positions _ _
  · simp only [Bool.not_eq_true] at hb
    simp only [hb, Bool.false_eq_true, if_false, hr]
    exact obmol_sp_attempt_positions _ _

lemma finish_up_positions_of_input (cfg : ExecCfg) (in_struct : Mol) (st : RunState)
    (h : st.mol.positions = in_struct.positions) :
    (finish_up cfg in_struct st).mol.positions = in_struct.positions := by
  rw [finish_up_mol]
  split
  · simp
  · rw [post_mol_positions, h]

lemma pre_mol_positions (cfg : ExecCfg) (m : Mol) : (pre_mol cfg m).positions = m.positions := by
  unfold pre_mol
  split <;> simp

lemma spin_mol_positions (cfg : ExecCfg) (m : Mol) : (spin_mol cfg m).positions = m.positions := by
  unfold spin_mol
  split <;> simp

lemma calculate_sp_positions (cfg : ExecCfg) (in_struct : Mol) (eng : Engine) (o : Outcome)
    (hrel : cfg.relax = false) (hok : calculate cfg in_struct eng = .ok o) :
    o.mol.positions = in_struct.positions := by
  unfold calculate at hok
  by_cases hg : (pre_mol cfg in_struct).dists_sane = true
  · simp only [hg, if_true] at hok
    rcases hsel : engine_select cfg (mk_init_state cfg (spin_mol cfg (pre_mol cfg in_struct)))
      with e | stb
    · rw [hsel] at hok
      exact absurd hok (by simp)
    · rw [hsel] at hok
      dsimp only at hok
      rw [Except.ok.injEq] at hok
      subst hok
      apply finish_up_positions_of_input
      have h1 : stb.1.relax = false := engine_select_ok_relax_false cfg _ stb hsel hrel
      have h2 := engine_select_ok_mol_positions cfg _ stb hsel
      calc ({ force_gen_fallback cfg eng (dispatch_attempt cfg eng stb) with
            done := true } : RunState).mol.positions
          = (force_gen_fallback cfg eng (dispatch_attempt cfg eng stb)).mol.positions := rfl
        _ = (dispatch_attempt cfg eng stb).mol.positions := force_gen_fallback_positions _ _ _
        _ = stb.1.mol.positions := by
            have hp : stb = (stb.1, stb.2) := rfl
            rw [hp] at h1 ⊢
            exact dispatch_attempt_positions_norelax cfg eng _ h1
        _ = in_struct.positions := by
            rw [h2]
            simp [mk_init_state, spin_mol_positions, pre_mol_positions]
  · simp only [Bool.not_eq_true] at hg
    simp only [hg, Bool.false_eq_true, if_false] at hok
    rw [Except.ok.injEq] at hok
    subst hok
    apply finish_up_positions_of_input
    simp [mk_init_state, pre_mol_positions]

lemma neb_eval_images_spec (env : NEBEnv) (method : String) :
    ∀ (l : List Mol) (k : Nat) (out : List Mol),
      neb_eval_images env method k l = .ok out →
      out.length = l.length ∧
        ∀ i, (out.get? i).map Mol.positions = (l.get? i).map Mol.positions := by
  intro l
  induction l with
  | nil =>
    intro k out hok
    unfold neb_eval_images at hok
    rw [Except.ok.injEq] at hok
    subst hok
    exact ⟨rfl, fun i => rfl⟩
  | cons m rest ih =>
    intro k out hok
    unfold neb_eval_images at hok
    rcases h1 : calculate (CalcExecutor_resolve (default_exec_args method)) m (env.engines k)
      with e | o
    · rw [h1] at hok
      exact absurd hok (by simp)
    · rw [h1] at hok
      rcases h2 : neb_eval_images env method (k + 1) rest with e2 | os
      · rw [h2] at hok
        exact absurd hok (by simp)
      · rw [h2] at hok
        dsimp only at hok
        rw [Except.ok.injEq] at hok
        subst hok
        obtain ⟨hl, hp⟩ := ih (k + 1) os h2
        refine ⟨by simp [hl], fun i => ?_⟩
        cases i with
        | zero =>
          have := calculate_sp_positions (CalcExecutor_resolve (default_exec_args method))
            m (env.engines k) o rfl h1
          simp [this]
        | succ n =>
          simpa using hp n

lemma get?_mapIdx (l : List α) (f : ℕ → α → β) (i : ℕ) :
    (l.mapIdx f).get? i = (l.get? i).map (f i) := by
  by_cases h : i < l.length
  · have h2 : i < (l.mapIdx f).length := by simpa [List.length_mapIdx] using h
    rw [List.get?_eq_get h, List.get?_eq_get h2, List.get_mapIdx l f i h]
    rfl
  · have h2 : (l.mapIdx f).get? i = none := by
      rw [List.get?_eq_none]
      simpa [List.length_mapIdx] using le_of_not_lt h
    have h3 : l.get? i = none := List.get?_eq_none.2 (le_of_not_lt h)
    rw [h2, h3]
    rfl

lemma neb_images_get (env : NEBEnv) (im fm : Mol) (n : Nat) (L0 : List Mol) (hn : 2 ≤ n)
    (hL0 : L0 = [im] ++ ((List.range (n - 2)).map fun _ => im) ++ [fm]) :
    (neb_interpolate env L0).length = n ∧
      (neb_interpolate env L0).get? 0 = some im ∧
      (neb_interpolate env L0).get? (n - 1) = some fm ∧
      ∀ k, 0 < k → k < n - 1 →
        ((neb_interpolate env L0).get? k).map Mol.positions = some (env.interp k) := by
  have hlen0 : L0.length = n := by
    rw [hL0]
    simp only [List.length_append, List.length_map, List.length_range, List.length_cons,
      List.length_nil]
    omega
  have hcons : L0 = im :: (((List.range (n - 2)).map fun _ => im) ++ [fm]) := by
    rw [hL0]
    simp
  have hlen : (neb_interpolate env L0).length = n := by
    unfold neb_interpolate
    rw [List.length_mapIdx, hlen0]
  have hget0 : L0.get? 0 = some im := by
    rw [hcons]
    rfl
  have hgetlast : L0.get? (n - 1) = some fm := by
    rw [hcons]
    have hidx : n - 1 = (n - 2) + 1 := by omega
    rw [hidx]
    rw [List.get?_cons_succ]
    rw [List.get?_append_right (by simp)]
    simp
  have hgetmid : ∀ k, 0 < k → k < n - 1 → L0.get? k = some im := by
    intro k hk1 hk2
    rw [hcons]
    obtain ⟨j, rfl⟩ : ∃ j, k = j + 1 := ⟨k - 1, by omega⟩
    rw [List.get?_cons_succ]
    rw [List.get?_append (by simp; omega)]
    rw [List.get?_map]
    rw [List.get?_range (by omega)]
    rfl
  refine ⟨hlen, ?_, ?_, ?_⟩
  · unfold neb_interpolate
    rw [get?_mapIdx, hget0]
    simp
  · unfold neb_interpolate
    rw [get?_mapIdx, hgetlast]
    simp [hlen0]
  · intro k hk1 hk2
    unfold neb_interpolate
    rw [get?_mapIdx, hgetmid k hk1 hk2]
    have h1 : ¬ k = 0 := by omega
    have h2 : ¬ k = L0.length - 1 := by rw [hlen0]; omega
    simp [h1, h2]

/-- C8: a NEB path built by `NEB_setup` with image count `n ≥ 2` has exactly
`n` images; the first image's geometry equals the initial endpoint structure,
the last image's geometry equals the final endpoint after rigid-body
alignment onto the initial endpoint, and every interior image's geometry is
the interpolated one — the single-point executor evaluation of each image
leaves geometries unchanged. -/
theorem NEB_setup_endpoints (env : NEBEnv) (initial finalStruct : Mol) (n : Nat)
    (neb_method : String) (imgs : List Mol)
    (hn : 2 ≤ n)
    (hok : NEB_setup env initial finalStruct n neb_method = .ok imgs) :
    imgs.length = n ∧
      (imgs.get? 0).map Mol.positions = some initial.positions ∧
      (imgs.get? (n - 1)).map Mol.positions
        = some (env.neb_align initial.positions finalStruct.positions) ∧
      ∀ k, 0 < k → k < n - 1 →
        (imgs.get? k).map Mol.positions = some (env.interp k) := by
  unfold NEB_setup at hok
  dsimp only at hok
  obtain ⟨hlen, hpt⟩ := neb_eval_images_spec env neb_method _ 0 imgs hok
  obtain ⟨ilen, iget0, igetlast, igetmid⟩ := neb_images_get env (convert_io_molecule initial)
    ({ convert_io_molecule finalStruct with
        positions := env.neb_align (convert_io_molecule initial).positions
          (convert_io_molecule finalStruct).positions }) n _ hn rfl
  refine ⟨by rw [hlen, ilen], ?_, ?_, ?_⟩
  · rw [hpt 0, iget0]
    simp [convert_io_molecule]
  · rw [hpt (n - 1), igetlast]
    simp [convert_io_molecule]
  · intro k hk1 hk2
    rw [hpt k]
    exact igetmid k hk1 hk2

/-- A second endpoint structure for the NEB witness. -/
def mEnd : Mol := { mStd with positions := [Flt.fin 9, Flt.fin 0, Flt.fin 0] }

/-- Concrete NEB environment for the witness: alignment returns the final
endpoint's coordinates unchanged, interpolation yields a marker geometry. -/
def nebEnvW : NEBEnv :=
  { neb_align := fun _ q => q, interp := fun _ => [Flt.fin 7, Flt.fin 0, Flt.fin 0],
    engines := fun _ => engStd }

/-- The image chain built by the witness NEB run (4 images). -/
def nebImgsW : List Mol :=
  (NEB_setup nebEnvW mStd mEnd 4 "GFN2-xTB").toOption.getD []

theorem NEB_setup_endpoints_witness :
    2 ≤ 4 ∧ NEB_setup nebEnvW mStd mEnd 4 "GFN2-xTB" = .ok nebImgsW ∧
      nebImgsW.length = 4 ∧
      (nebImgsW.get? 0).map Mol.positions = some mStd.positions ∧
      (nebImgsW.get? 3).map Mol.positions
        = some (nebEnvW.neb_align mStd.positions mEnd.positions) :=
  ⟨by decide, by decide,
    (NEB_setup_endpoints nebEnvW mStd mEnd 4 "GFN2-xTB" nebImgsW (by decide) (by decide)).1,
    (NEB_setup_endpoints nebEnvW mStd mEnd 4 "GFN2-xTB" nebImgsW (by decide) (by decide)).2.1,
    (NEB_setup_endpoints nebEnvW mStd mEnd 4 "GFN2-xTB" nebImgsW (by decide) (by decide)).2.2.1⟩

/-- Auxiliary relation: `Picks rest rows` states that `rows` selects, in
order, one pattern row from each of the first `rows.length` pattern lists of
`rest` — the shape of the stacks `generate_good_combos` builds. -/
inductive Picks : List (List (List Nat)) → List (List Nat) → Prop where
  | nil (rest : List (List (List Nat))) : Picks rest []
  | cons {combs : List (List Nat)} {rest : List (List (List Nat))} {r : List Nat}
      {rows : List (List Nat)} (hr : r ∈ combs) (h : Picks rest rows) :
      Picks (combs :: rest) (r :: rows)

lemma picks_length {rest : List (List (List Nat))} {rows : List (List Nat)}
    (h : Picks rest rows) : rows.length ≤ rest.length := by
  induction h with
  | nil => simp
  | cons hr h ih => simpa using Nat.succ_le_succ ih

lemma picks_get? {rest : List (List (List Nat))} {rows : List (List Nat)}
    (h : Picks rest rows) :
    ∀ i r, rows.get? i = some r → ∃ combs, rest.get? i = some combs ∧ r ∈ combs := by
  induction h with
  | nil => intro i r hi; simp at hi
  | cons hr h ih =>
    intro i r hi
    cases i with
    | zero =>
      simp only [List.get?_cons_zero, Option.some.injEq] at hi
      subst hi
      exact ⟨_, rfl, hr⟩
    | succ j =>
      simp only [List.get?_cons_succ] at hi ⊢
      exact ih j r hi

lemma generate_good_combos_spec :
    ∀ (rest : List (List (List Nat))) (prev : List (List Nat)) (occMax : Nat)
      (a : List (List Nat)), a ∈ generate_good_combos rest prev occMax →
    ∃ rows, a = prev ++ rows ∧ Picks rest rows ∧
      (∀ i r, rows.get? i = some r → ∀ x ∈ r, x ∉ (prev ++ rows.take i).flatten) ∧
      occMax ≤ a.flatten.length ∧
      (∀ k, k < rows.length → (prev ++ rows.take k).flatten.length < occMax) := by
  intro rest
  induction rest with
  | nil =>
    intro prev occMax a ha
    unfold generate_good_combos at ha
    split at ha
    · simp at ha
    · rename_i h
      simp only [List.mem_singleton] at ha
      subst ha
      exact ⟨[], by simp, Picks.nil _, by simp, by simpa using le_of_not_lt h, by simp⟩
  | cons combs rest1 ih =>
    intro prev occMax a ha
    unfold generate_good_combos at ha
    split at ha
    · rename_i hlt
      rw [List.mem_flatMap] at ha
      obtain ⟨r, hr, ha⟩ := ha
      obtain ⟨rows, haeq, hpicks, hdisj, hcomp, hmin⟩ := ih (prev ++ [r]) occMax a ha
      unfold test_combos at hr
      rw [List.mem_filter] at hr
      obtain ⟨hrmem, hrtest⟩ := hr
      have hrdisj : ∀ x ∈ r, x ∉ prev.flatten := by
        intro x hx
        simp only [Bool.not_eq_true', List.any_eq_false] at hrtest
        have := hrtest x hx
        simpa using this
      refine ⟨r :: rows, by simpa [List.append_assoc] using haeq,
        Picks.cons hrmem hpicks, ?_, hcomp, ?_⟩
      · intro i rr hi x hx
        cases i with
        | zero =>
          simp only [List.get?_cons_zero, Option.some.injEq] at hi
          subst hi
          simpa using hrdisj x hx
        | succ j =>
          simp only [List.get?_cons_succ] at hi
          have := hdisj j rr hi x hx
          simpa [List.append_assoc] using this
      · intro k hk
        cases k with
        | zero => simpa using hlt
        | succ j =>
          have := hmin j (by simpa using hk)
          simpa [List.append_assoc] using this
    · rename_i h
      simp only [List.mem_singleton] at ha
      subst ha
      exact ⟨[], by simp, Picks.nil _, by simp, by simpa using le_of_not_lt h, by simp⟩

lemma picks_flatten_length {lists : List (List (List Nat))} {rows : List (List Nat)}
    (hp : Picks lists rows) :
    ∀ dents : List Nat, lists.length = dents.length →
    (∀ i combs d, lists.get? i = some combs → dents.get? i = some d →
      ∀ r ∈ combs, r.length = d) →
    rows.flatten.length = (dents.take rows.length).sum := by
  induction hp with
  | nil => intro dents _ _; simp
  | @cons combs rest r rows hr h ih =>
    intro dents hlen hrows
    cases dents with
    | nil => simp at hlen
    | cons d dents1 =>
      have h0 : r.length = d := hrows 0 combs d rfl rfl r hr
      have hrec := ih dents1 (by simpa using hlen)
        (fun i combs2 d2 h1 h2 => hrows (i + 1) combs2 d2 (by simpa using h1)
          (by simpa using h2))
      simp [h0, hrec]

lemma take_sum_le (dents : List Nat) (k : Nat) : (dents.take k).sum ≤ dents.sum := by
  conv_rhs => rw [← List.take_append_drop k dents]
  rw [List.sum_append]
  exact Nat.le_add_right _ _

lemma take_sum_eq_total (dents : List Nat) (k : Nat) (hk : k ≤ dents.length)
    (hpos : ∀ i d, dents.get? i = some d → 1 ≤ d)
    (heq : (dents.take k).sum = dents.sum) : k = dents.length := by
  by_contra hne
  have hklt : k < dents.length := lt_of_le_of_ne hk hne
  have hdrop : (dents.drop k).sum = 0 := by
    have := List.take_append_drop k dents
    have hsum : (dents.take k).sum + (dents.drop k).sum = dents.sum := by
      rw [← List.sum_append, this]
    omega
  obtain ⟨d, hd⟩ : ∃ d, (dents.drop k).get? 0 = some d := by
    have : 0 < (dents.drop k).length := by
      rw [List.length_drop]
      omega
    exact ⟨_, List.get?_eq_get this⟩
  have hmem : d ∈ dents.drop k := List.get?_mem hd
  have hdz : d = 0 := by
    have := List.sum_eq_zero_iff.1 hdrop
    exact this d hmem
  have : dents.get? (k + 0) = some d := by
    rw [← List.get?_drop]
    exact hd
  have := hpos (k + 0) d this
  omega

lemma rows_pairwise_disjoint (rows : List (List Nat))
    (hdisj : ∀ i r, rows.get? i = some r → ∀ x ∈ r, x ∉ (rows.take i).flatten) :
    rows.Pairwise List.Disjoint := by
  rw [List.pairwise_iff_getElem]
  intro i j hi hj hij
  intro x hxi hxj
  have hj2 : rows.get? j = some (rows[j]) := by
    rw [List.get?_eq_getElem?]
    exact List.getElem?_eq_getElem hj
  apply hdisj j (rows[j]) hj2 x hxj
  rw [List.mem_flatten]
  refine ⟨rows[i], ?_, hxi⟩
  have hlt : i < (rows.take j).length := by
    rw [List.length_take]
    omega
  have heq : (rows.take j).get ⟨i, hlt⟩ = rows[i] := List.getElem_take rows
  exact heq ▸ List.getElem_mem hlt

/-- Well-formedness check on the per-ligand pattern lists handed to
`generate_good_combos` by `select_cons`: each admissible row of ligand `i` has
exactly that ligand's denticity many entries and no internal repeat. -/
def rows_ok (lists : List (List (List Nat))) (dents : List Nat) : Bool :=
  (List.range lists.length).all fun i => (lists.getD i []).all fun r =>
    decide (r.length = dents.getD i 0 ∧ r.Nodup)

lemma rows_ok_spec (lists : List (List (List Nat))) (dents : List Nat)
    (h : rows_ok lists dents = true) :
    ∀ i combs d, lists.get? i = some combs → dents.get? i = some d →
      ∀ r ∈ combs, r.length = d ∧ r.Nodup := by
  intro i combs d h1 h2 r hr
  unfold rows_ok at h
  rw [List.all_eq_true] at h
  obtain ⟨hil, -⟩ := List.get?_eq_some.1 h1
  have hall := h i (List.mem_range.2 hil)
  rw [List.all_eq_true] at hall
  have hcombs : lists.getD i [] = combs := by
    rw [List.getD_eq_get?, h1]
    rfl
  have hdd : dents.getD i 0 = d := by
    rw [List.getD_eq_get?, h2]
    rfl
  have := of_decide_eq_true (hall r (hcombs ▸ hr))
  rw [hdd] at this
  exact this

/-- C3: site-disjointness of the enumerator.  `select_cons` returns (after
the pseudo-Coulomb scoring, which only selects a subset, and the repeat-ligand
inversion, which preserves the combined claimed-site multiset) assignments
produced by `generate_good_combos` on per-ligand pattern lists whose row
lengths are the ligand denticities and whose denticities sum to the core's
coordination number.  Every such candidate assignment claims each core site
at most once (no duplicate site index across all ligands) and claims exactly
the coordination number many sites in total. -/
theorem select_cons_site_disjoint
    (lists : List (List (List Nat))) (dents : List Nat) (cn : Nat)
    (hlen : lists.length = dents.length)
    (hrows : rows_ok lists dents = true)
    (hsum : dents.sum = cn)
    (a : List (List Nat)) (ha : a ∈ generate_good_combos lists [] cn) :
    a.flatten.Nodup ∧ a.flatten.length = cn := by
  obtain ⟨rows, haeq, hpicks, hdisj, hcomp, hmin⟩ := generate_good_combos_spec lists [] cn a ha
  simp only [List.nil_append] at haeq
  subst haeq
  have hspec := rows_ok_spec lists dents hrows
  have hflen : a.flatten.length = (dents.take a.length).sum :=
    picks_flatten_length hpicks dents hlen
      (fun i combs d h1 h2 r hr => (hspec i combs d h1 h2 r hr).1)
  have hub : a.flatten.length ≤ cn := by
    rw [hflen, ← hsum]
    exact take_sum_le dents a.length
  have hlen_eq : a.flatten.length = cn := le_antisymm hub hcomp
  refine ⟨?_, hlen_eq⟩
  rw [List.nodup_flatten]
  constructor
  · intro l hl
    obtain ⟨i, hi⟩ := List.mem_iff_get?.1 hl
    obtain ⟨combs, hcombs, hmem⟩ := picks_get? hpicks i l hi
    obtain ⟨hil, -⟩ := List.get?_eq_some.1 hcombs
    have hid : i < dents.length := hlen ▸ hil
    exact (hspec i combs (dents.get ⟨i, hid⟩) hcombs (List.get?_eq_get hid) l hmem).2
  · exact rows_pairwise_disjoint a
      (fun i r hi x hx => by simpa using hdisj i r hi x hx)

/-- Concrete pattern lists for the enumerator witness: one bidentate ligand
with two admissible rows and two monodentate ligands, on a 4-site core. -/
def listsW : List (List (List Nat)) := [[[0, 1], [1, 2]], [[2], [3]], [[3], [2]]]

/-- Denticities of the witness ligands. -/
def dentsW : List Nat := [2, 1, 1]

theorem select_cons_site_disjoint_witness :
    listsW.length = dentsW.length ∧ rows_ok listsW dentsW = true ∧ dentsW.sum = 4 ∧
      [[0, 1], [2], [3]] ∈ generate_good_combos listsW [] 4 ∧
      (([[0, 1], [2], [3]] : List (List Nat)).flatten.Nodup ∧
        ([[0, 1], [2], [3]] : List (List Nat)).flatten.length = 4) :=
  ⟨rfl, by decide, by decide, by decide,
    select_cons_site_disjoint listsW dentsW 4 rfl (by decide) (by decide)
      [[0, 1], [2], [3]] (by decide)⟩

lemma resolve_lig_cons_trans (geo_map : String → Option (String → Option (List (List Nat))))
    (coreType : String) (tmp_cn : Nat) (tr : Nat) (lig : LigDict)
    (out : List (List Nat) × Nat × Bool × Nat)
    (h : resolve_lig_cons geo_map coreType tmp_cn true tr lig = .ok out) :
    out.2.2.2 = if oxo_mono lig then tr + 1 else tr := by
  unfold resolve_lig_cons at h
  unfold oxo_mono
  split at h
  · rename_i hcond
    split at h
    · split at h <;> (rw [Except.ok.injEq] at h; subst h) <;>
        (cases hc : lig.coordList with
          | nil => simp
          | cons e rest =>
            cases e <;> cases rest <;> simp_all)
    · rw [Except.ok.injEq] at h
      subst h
      cases hc : lig.coordList with
      | nil => simp
      | cons e rest => cases e <;> cases rest <;> simp_all
  · split at h
    · rename_i hone
      split at h
      · rw [Except.ok.injEq] at h
        subst h
        rename_i hpat
        rw [hpat]
        simp
      · rename_i hpat
        split at h
        · rename_i hoxo
          have hplain : ∃ x, lig.coordList = [CoordEntry.plain x] := by
            cases hc : lig.coordList with
            | nil => rw [hc] at hone; simp at hone
            | cons e rest =>
              cases rest with
              | cons e2 r2 => rw [hc] at hone; simp at hone
              | nil =>
                cases e with
                | plain x => exact ⟨x, rfl⟩
                | pinned x y =>
                  rw [hc] at hpat
                  exact absurd rfl (hpat x y)
          obtain ⟨x, hx⟩ := hplain
          rw [hx]
          simp only [hoxo.1, if_pos rfl]
          split at h <;> (rw [Except.ok.injEq] at h; subst h; simp)
        · rename_i hnoxo
          have : oxo_mono lig = false := by
            unfold oxo_mono
            cases hc : lig.coordList with
            | nil => rfl
            | cons e rest =>
              cases e <;> cases rest <;> try rfl
              simp only []
              rw [decide_eq_false_iff_not]
              intro hsm
              exact hnoxo ⟨hsm, rfl⟩
          unfold oxo_mono at this
          rw [this]
          split at h <;> (rw [Except.ok.injEq] at h; subst h; rfl)
    · split at h
      · split at h
        · split at h
          · rw [Except.ok.injEq] at h
            subst h
            cases hc : lig.coordList with
            | nil => simp
            | cons e rest => cases e <;> cases rest <;> simp_all
          · exact absurd h (by simp)
        · split at h
          · rw [Except.ok.injEq] at h
            subst h
            cases hc : lig.coordList with
            | nil => simp
            | cons e rest => cases e <;> cases rest <;> simp_all
          · exact absurd h (by simp)
      · exact absurd h (by simp)

lemma resolve_lig_cons_oxo (geo_map : String → Option (String → Option (List (List Nat))))
    (coreType : String) (tmp_cn : Nat) (tr : Nat) (lig : LigDict)
    (out : List (List Nat) × Nat × Bool × Nat)
    (hoxo : oxo_mono lig = true)
    (h : resolve_lig_cons geo_map coreType tmp_cn true tr lig = .ok out) :
    out.1 = if tr = 0 then [[0]] else [[1]] := by
  obtain ⟨x, hx, hsm⟩ : ∃ x, lig.coordList = [CoordEntry.plain x] ∧ lig.smiles = "[O-2]" := by
    unfold oxo_mono at hoxo
    cases hc : lig.coordList with
    | nil => rw [hc] at hoxo; simp at hoxo
    | cons e rest =>
      cases e with
      | plain y =>
        cases rest with
        | nil =>
          rw [hc] at hoxo
          simp only [decide_eq_true_eq] at hoxo
          exact ⟨y, rfl, hoxo⟩
        | cons e2 r2 => rw [hc] at hoxo; simp at hoxo
      | pinned y z => rw [hc] at hoxo; simp at hoxo
  unfold resolve_lig_cons at h
  rw [hx, hsm] at h
  simp at h
  split at h <;> rename_i htr <;> rw [Except.ok.injEq] at h <;> subst h <;> simp [htr]

lemma resolve_all_oxo_patterns (geo_map : String → Option (String → Option (List (List Nat))))
    (coreType : String) (tmp_cn : Nat) :
    ∀ (ligs : List LigDict) (tr : Nat)
      (out : List (List (List Nat)) × List Nat × List Bool),
      resolve_all_lig_cons geo_map coreType tmp_cn true ligs tr = .ok out →
      ∀ i lig, ligs.get? i = some lig → oxo_mono lig = true →
        out.1.get? i
          = some (if tr + (ligs.take i).countP oxo_mono = 0 then [[0]] else [[1]]) := by
  intro ligs
  induction ligs with
  | nil =>
    intro tr out h i lig hi
    simp at hi
  | cons l0 rest ih =>
    intro tr out h i lig hi hoxo
    unfold resolve_all_lig_cons at h
    rcases h1 : resolve_lig_cons geo_map coreType tmp_cn true tr l0 with e | r
    · rw [h1] at h
      exact absurd h (by simp)
    · rw [h1] at h
      dsimp only at h
      rcases h2 : resolve_all_lig_cons geo_map coreType tmp_cn true rest r.2.2.2 with e2 | rs
      · rw [h2] at h
        exact absurd h (by simp)
      · rw [h2] at h
        dsimp only at h
        rw [Except.ok.injEq] at h
        subst h
        have htr := resolve_lig_cons_trans geo_map coreType tmp_cn tr l0 r h1
        cases i with
        | zero =>
          simp only [List.get?_cons_zero, Option.some.injEq] at hi
          subst hi
          have hpat := resolve_lig_cons_oxo geo_map coreType tmp_cn tr l0 r hoxo h1
          simp only [List.take_zero, List.countP_nil, Nat.add_zero]
          simp [hpat]
        | succ j =>
          simp only [List.get?_cons_succ] at hi
          have hrec := ih r.2.2.2 rs h2 j lig hi hoxo
          rw [htr] at hrec
          simp only [List.get?_cons_succ]
          rw [List.take_succ_cons, List.countP_cons]
          by_cases hl0 : oxo_mono l0 = true
          · rw [if_pos hl0] at hrec
            have hne1 : ¬ (tr + 1 + (rest.take j).countP oxo_mono = 0) := by omega
            have hne2 : ¬ (tr + ((rest.take j).countP oxo_mono
                + if oxo_mono l0 = true then 1 else 0) = 0) := by
              rw [if_pos hl0]
              omega
            rw [if_neg hne1] at hrec
            rw [if_neg hne2]
            exact hrec
          · rw [if_neg hl0] at hrec
            have heq : tr + ((rest.take j).countP oxo_mono
                + if oxo_mono l0 = true then 1 else 0)
                = tr + (rest.take j).countP oxo_mono := by
              rw [if_neg hl0]
              omega
            rw [heq]
            exact hrec

/-- Positivity check on denticities: every ligand coordinates through at
least one site. -/
def dents_pos (dents : List Nat) : Bool :=
  dents.all fun d => decide (1 ≤ d)

lemma generate_full_pick (lists : List (List (List Nat))) (dents : List Nat) (cn : Nat)
    (hlen : lists.length = dents.length)
    (hrows : rows_ok lists dents = true)
    (hpos : dents_pos dents = true)
    (hsum : dents.sum = cn)
    (a : List (List Nat)) (ha : a ∈ generate_good_combos lists [] cn) :
    a.length = lists.length ∧ Picks lists a := by
  obtain ⟨rows, haeq, hpicks, hdisj, hcomp, hmin⟩ := generate_good_combos_spec lists [] cn a ha
  simp only [List.nil_append] at haeq
  subst haeq
  have hspec := rows_ok_spec lists dents hrows
  have hflen : a.flatten.length = (dents.take a.length).sum :=
    picks_flatten_length hpicks dents hlen
      (fun i combs d h1 h2 r hr => (hspec i combs d h1 h2 r hr).1)
  have hub : (dents.take a.length).sum ≤ dents.sum := take_sum_le dents a.length
  have heq : (dents.take a.length).sum = dents.sum := by
    have h1 : cn ≤ (dents.take a.length).sum := hflen ▸ hcomp
    omega
  have hposS : ∀ i d, dents.get? i = some d → 1 ≤ d := by
    intro i d hd
    unfold dents_pos at hpos
    rw [List.all_eq_true] at hpos
    exact of_decide_eq_true (hpos d (List.get?_mem hd))
  have hkey := take_sum_eq_total dents a.length
    (hlen ▸ picks_length hpicks) hposS heq
  exact ⟨hlen ▸ hkey, hpicks⟩

lemma generate_blocked (lists : List (List (List Nat))) (dents : List Nat) (cn : Nat)
    (hlen : lists.length = dents.length)
    (hrows : rows_ok lists dents = true)
    (hpos : dents_pos dents = true)
    (hsum : dents.sum = cn)
    (hblock : (∃ k, lists.get? k = some []) ∨
      ∃ i j, i ≠ j ∧ lists.get? i = some [[1]] ∧ lists.get? j = some [[1]]) :
    generate_good_combos lists [] cn = [] := by
  rw [List.eq_nil_iff_forall_not_mem]
  intro a ha
  obtain ⟨hfull, hpicks⟩ := generate_full_pick lists dents cn hlen hrows hpos hsum a ha
  rcases hblock with ⟨k, hk⟩ | ⟨i, j, hij, hi, hj⟩
  · obtain ⟨hkl, -⟩ := List.get?_eq_some.1 hk
    obtain ⟨r, hr⟩ : ∃ r, a.get? k = some r := ⟨_, List.get?_eq_get (hfull ▸ hkl)⟩
    obtain ⟨combs, hcombs, hmem⟩ := picks_get? hpicks k r hr
    rw [hk] at hcombs
    rw [Option.some.injEq] at hcombs
    subst hcombs
    simp at hmem
  · obtain ⟨rows2, haeq, hpicks2, hdisj, -, -⟩ := generate_good_combos_spec lists [] cn a ha
    simp only [List.nil_append] at haeq
    subst haeq
    obtain ⟨hil, -⟩ := List.get?_eq_some.1 hi
    obtain ⟨hjl, -⟩ := List.get?_eq_some.1 hj
    obtain ⟨ri, hri⟩ : ∃ r, a.get? i = some r := ⟨_, List.get?_eq_get (hfull ▸ hil)⟩
    obtain ⟨rj, hrj⟩ : ∃ r, a.get? j = some r := ⟨_, List.get?_eq_get (hfull ▸ hjl)⟩
    obtain ⟨ci, hci, hmi⟩ := picks_get? hpicks i ri hri
    obtain ⟨cj, hcj, hmj⟩ := picks_get? hpicks j rj hrj
    rw [hi, Option.some.injEq] at hci
    rw [hj, Option.some.injEq] at hcj
    subst hci
    subst hcj
    simp only [List.mem_singleton] at hmi hmj
    subst hmi
    subst hmj
    have hpw := rows_pairwise_disjoint a (fun i2 r2 h2 x hx => by simpa using hdisj i2 r2 h2 x hx)
    rw [List.pairwise_iff_getElem] at hpw
    have hia : i < a.length := hfull ▸ hil
    have hja : j < a.length := hfull ▸ hjl
    have hgi : a[i] = [1] := by
      have h2 := List.get?_eq_get hia
      rw [hri] at h2
      exact (Option.some.inj h2).symm
    have hgj : a[j] = [1] := by
      have h2 := List.get?_eq_get hja
      rw [hrj] at h2
      exact (Option.some.inj h2).symm
    rcases Nat.lt_or_ge i j with hlt | hge
    · have hd := hpw i j hia hja hlt
      rw [hgi, hgj] at hd
      exact hd (List.mem_singleton.2 rfl) (List.mem_singleton.2 rfl)
    · have hlt2 : j < i := lt_of_le_of_ne hge (Ne.symm hij)
      have hd := hpw j i hja hia hlt2
      rw [hgi, hgj] at hd
      exact hd (List.mem_singleton.2 rfl) (List.mem_singleton.2 rfl)

lemma countP_nth_match {α : Type} (p : α → Bool) :
    ∀ (l : List α) (n : Nat), n + 1 ≤ l.countP p →
      ∃ i x, l.get? i = some x ∧ p x = true ∧ (l.take i).countP p = n := by
  intro l
  induction l with
  | nil => intro n h; simp at h
  | cons a l ih =>
    intro n h
    rw [List.countP_cons] at h
    by_cases hpa : p a = true
    · rw [if_pos hpa] at h
      cases n with
      | zero => exact ⟨0, a, rfl, hpa, by simp⟩
      | succ m =>
        obtain ⟨i, x, hi, hx, hc⟩ := ih m (by omega)
        refine ⟨i + 1, x, by simpa using hi, hx, ?_⟩
        rw [List.take_succ_cons, List.countP_cons, if_pos hpa, hc]
    · rw [if_neg hpa] at h
      obtain ⟨i, x, hi, hx, hc⟩ := ih n (by omega)
      refine ⟨i + 1, x, by simpa using hi, hx, ?_⟩
      rw [List.take_succ_cons, List.countP_cons, if_neg hpa, hc]
      omega

/-- **C10.** Under the force-trans-oxo option: the first oxo ('[O-2]')
monodentate ligand encountered (the one with no earlier oxo) is assigned the
single admissible pattern [[0]] and every later oxo ligand is assigned [[1]]
(io_symmetry.py lines 312-321); consequently, for any ligand list containing
three or more oxo ligands, two ligands carry the identical singleton pattern
[[1]], no site-disjoint assignment exists, and the enumeration
`generate_good_combos` returns zero candidates for every core template
(any denticity vector consistent with the pattern rows and summing to the
coordination number). -/
theorem select_cons_force_trans_oxo
    (geo_map : String → Option (String → Option (List (List Nat))))
    (coreType : String) (tmp_cn : Nat) (ligs : List LigDict)
    (out : List (List (List Nat)) × List Nat × List Bool)
    (h : resolve_all_lig_cons geo_map coreType tmp_cn true ligs 0 = .ok out) :
    (∀ i lig, ligs.get? i = some lig → oxo_mono lig = true →
      out.1.get? i
        = some (if (ligs.take i).countP oxo_mono = 0 then [[0]] else [[1]])) ∧
    (∀ (dents : List Nat) (cn : Nat),
      out.1.length = dents.length →
      rows_ok out.1 dents = true →
      dents_pos dents = true →
      dents.sum = cn →
      3 ≤ ligs.countP oxo_mono →
      generate_good_combos out.1 [] cn = []) := by
  constructor
  · intro i lig hi hoxo
    have hp := resolve_all_oxo_patterns geo_map coreType tmp_cn ligs 0 out h i lig hi hoxo
    simpa using hp
  · intro dents cn hlen hrows hpos hsum hcount
    obtain ⟨i2, x2, hi2, hx2, hc2⟩ := countP_nth_match oxo_mono ligs 1 (by omega)
    obtain ⟨i3, x3, hi3, hx3, hc3⟩ := countP_nth_match oxo_mono ligs 2 (by omega)
    have hp2 := resolve_all_oxo_patterns geo_map coreType tmp_cn ligs 0 out h i2 x2 hi2 hx2
    have hp3 := resolve_all_oxo_patterns geo_map coreType tmp_cn ligs 0 out h i3 x3 hi3 hx3
    have hp2q : out.1.get? i2 = some [[1]] := by
      rw [hp2, hc2]
      rfl
    have hp3q : out.1.get? i3 = some [[1]] := by
      rw [hp3, hc3]
      rfl
    have hne : i2 ≠ i3 := by
      intro heq
      subst heq
      rw [hc2] at hc3
      exact absurd hc3 (by decide)
    exact generate_blocked out.1 dents cn hlen hrows hpos hsum
      (Or.inr ⟨i2, i3, hne, hp2q, hp3q⟩)

/-- Trivial geometry map with no polydentate ligand classes, for the
concrete trans-oxo evaluation. -/
def gmW : String → Option (String → Option (List (List Nat))) := fun _ => none

def oxoW : LigDict :=
  { smiles := "[O-2]", ligType := "mono",
    coordList := [CoordEntry.plain 0], stored_core_cons := none }

def ligsW10 : List LigDict := [oxoW, oxoW, oxoW]

def outW10 : List (List (List Nat)) × List Nat × List Bool :=
  (resolve_all_lig_cons gmW "octahedral" 3 true ligsW10 0).toOption.getD ([], [], [])

theorem select_cons_force_trans_oxo_witness :
    resolve_all_lig_cons gmW "octahedral" 3 true ligsW10 0 = .ok outW10 ∧
    outW10.1.get? 0 = some [[0]] ∧
    outW10.1.get? 1 = some [[1]] ∧
    outW10.1.get? 2 = some [[1]] ∧
    generate_good_combos outW10.1 [] 3 = [] := by
  have hT := select_cons_force_trans_oxo gmW "octahedral" 3 ligsW10 outW10 (by decide)
  refine ⟨by decide, ?_, ?_, ?_, ?_⟩
  · have h0 := hT.1 0 oxoW (by decide) (by decide)
    rw [h0]
    decide
  · have h1 := hT.1 1 oxoW (by decide) (by decide)
    rw [h1]
    decide
  · have h2 := hT.1 2 oxoW (by decide) (by decide)
    rw [h2]
    decide
  · exact hT.2 [1, 1, 1] 3 (by decide) (by decide) (by decide) (by decide) (by decide)

lemma combinations_mem {α : Type} :
    ∀ (l : List α) (n : Nat) (c : List α), c ∈ combinations n l →
      c.length = n ∧ c.Sublist l := by
  intro l
  induction l with
  | nil =>
    intro n c hc
    cases n with
    | zero =>
      simp only [combinations, List.mem_singleton] at hc
      subst hc
      exact ⟨rfl, List.Sublist.refl _⟩
    | succ m => simp [combinations] at hc
  | cons x xs ih =>
    intro n c hc
    cases n with
    | zero =>
      simp only [combinations, List.mem_singleton] at hc
      subst hc
      exact ⟨rfl, List.nil_sublist _⟩
    | succ m =>
      simp only [combinations, List.mem_append, List.mem_map] at hc
      rcases hc with ⟨c1, hc1, heq⟩ | hc2
      · obtain ⟨hl, hs⟩ := ih m c1 hc1
        subst heq
        exact ⟨by simp [hl], List.Sublist.cons₂ x hs⟩
      · obtain ⟨hl, hs⟩ := ih (m + 1) c hc2
        exact ⟨hl, List.Sublist.cons x hs⟩

lemma mapM_option_spec {α β : Type} (f : α → Option β) :
    ∀ (l : List α), (∀ x ∈ l, (f x).isSome = true) →
      ∃ out, l.mapM f = some out ∧ out.length = l.length ∧
        ∀ t x, l.get? t = some x → out.get? t = f x := by
  intro l
  induction l with
  | nil =>
    intro _
    exact ⟨[], List.mapM_nil f, rfl, by intro t x h; simp at h⟩
  | cons a l ih =>
    intro h
    obtain ⟨b, hb⟩ := Option.isSome_iff_exists.1 (h a (List.mem_cons_self a l))
    obtain ⟨out, hout, hlen, hget⟩ := ih fun x hx => h x (List.mem_cons_of_mem a hx)
    refine ⟨b :: out, ?_, by simp [hlen], ?_⟩
    · rw [List.mapM_cons, hb, hout]
      rfl
    · intro t x hx
      cases t with
      | zero =>
        rw [List.get?_cons_zero, Option.some.injEq] at hx
        subst hx
        simp [hb]
      | succ s =>
        rw [List.get?_cons_succ] at hx
        simpa using hget s x hx

lemma count_take_lt {l : List Nat} {t u : Nat} (h : l.get? t = some u) :
    (l.take t).count u < l.count u := by
  have ht : t < l.length := List.get?_eq_some.1 h |>.1
  have hdrop : l.drop t = u :: l.drop (t + 1) := by
    rw [List.drop_eq_get_cons ht]
    congr 1
    have := List.get?_eq_get ht
    rw [h] at this
    exact (Option.some.inj this).symm
  conv_rhs => rw [← List.take_append_drop t l]
  rw [List.count_append, hdrop, List.count_cons]
  simp

lemma build_inv_inds_get :
    ∀ (l dord : List Nat) (hist : Nat → Option Nat) (pre : List Nat),
      (∀ y, hist y = if pre.count y = 0 then none else some (pre.count y - 1)) →
      ∀ (t x : Nat), l.get? t = some x →
      (build_inv_inds l dord hist).get? t
        = some (x, dord.indexOf x, pre.count x + (l.take t).count x) := by
  intro l
  induction l with
  | nil =>
    intro dord hist pre hh t x h
    simp at h
  | cons item rest ih =>
    intro dord hist pre hh t x h
    have hcval : (hist item).elim 0 (fun v => v + 1) = pre.count item := by
      rw [hh item]
      by_cases h0 : pre.count item = 0
      · rw [if_pos h0, h0]
        rfl
      · rw [if_neg h0]
        show pre.count item - 1 + 1 = pre.count item
        omega
    cases t with
    | zero =>
      rw [List.get?_cons_zero, Option.some.injEq] at h
      subst h
      simp only [build_inv_inds, List.get?_cons_zero, Option.some.injEq, Prod.mk.injEq,
        List.take_zero, List.count_nil, Nat.add_zero]
      exact ⟨trivial, trivial, hcval⟩
    | succ s =>
      rw [List.get?_cons_succ] at h
      simp only [build_inv_inds, List.get?_cons_succ]
      have hh' : ∀ y, (if y = item then some ((hist item).elim 0 fun v => v + 1) else hist y)
          = if (pre ++ [item]).count y = 0 then none
            else some ((pre ++ [item]).count y - 1) := by
        intro y
        by_cases hy : y = item
        · subst hy
          rw [if_pos rfl, hcval]
          have hcy : (pre ++ [y]).count y = pre.count y + 1 := by
            rw [List.count_append, List.count_cons, List.count_nil]
            simp
          rw [hcy, if_neg (by omega)]
          simp
        · rw [if_neg hy, hh y]
          have hcy : (pre ++ [item]).count y = pre.count y := by
            rw [List.count_append, List.count_cons, List.count_nil]
            have hb : (item == y) = false := by
              rw [beq_eq_false_iff_ne]
              exact fun hc => hy hc.symm
            rw [hb]
            simp
          rw [hcy]
      rw [ih dord _ (pre ++ [item]) hh' s x h]
      rw [Option.some.injEq, Prod.mk.injEq]
      refine ⟨rfl, ?_⟩
      rw [Prod.mk.injEq]
      refine ⟨rfl, ?_⟩
      rw [List.take_succ_cons, List.count_append, List.count_cons, List.count_cons,
        List.count_nil]
      by_cases hbx : item = x
      · subst hbx
        simp only [beq_self_eq_true, if_true]
        omega
      · have hb : (item == x) = false := by
          rw [beq_eq_false_iff_ne]
          exact hbx
        rw [hb]
        simp

lemma build_inv_inds_get0 (l dord : List Nat) (t x : Nat) (h : l.get? t = some x) :
    (build_inv_inds l dord (fun _ => none)).get? t
      = some (x, dord.indexOf x, (l.take t).count x) := by
  have hh : ∀ y, (fun _ => (none : Option Nat)) y
      = if ([] : List Nat).count y = 0 then none else some (([] : List Nat).count y - 1) := by
    intro y
    rw [List.count_nil, if_pos rfl]
  have := build_inv_inds_get l dord (fun _ => none) [] hh t x h
  simpa using this

lemma map_repeat_refdict_some (scl : List (List Nat)) (nlig dent : Nat)
    (row : List Nat) (hrow : row ∈ (map_repeat_to_highdent scl nlig dent).1) :
    ∃ combo, (map_repeat_to_highdent scl nlig dent).2.1 row = some combo := by
  simp only [map_repeat_to_highdent] at hrow ⊢
  rw [List.mem_map] at hrow
  obtain ⟨p, hp, hp1⟩ := hrow
  have hsome : ((((combinations nlig scl).filterMap fun combo =>
      let item := combo.flatten.insertionSort fun x y => x ≤ y
      if item.Nodup then some (item, combo) else none).reverse.find?
        fun q => q.1 = row).isSome) = true := by
    rw [List.find?_isSome]
    exact ⟨p, List.mem_reverse.2 hp, decide_eq_true hp1⟩
  obtain ⟨q, hq⟩ := Option.isSome_iff_exists.1 hsome
  exact ⟨q.2, by rw [hq]; rfl⟩

lemma map_repeat_refdict_spec (scl : List (List Nat)) (nlig dent : Nat)
    (row : List Nat) (combo : List (List Nat))
    (h : (map_repeat_to_highdent scl nlig dent).2.1 row = some combo) :
    combo ∈ combinations nlig scl ∧ combo.flatten.Perm row := by
  simp only [map_repeat_to_highdent] at h
  rw [Option.map_eq_some'] at h
  obtain ⟨q, hq, hq2⟩ := h
  have hq1 : q.1 = row := by
    have hfind := List.find?_some hq
    rwa [decide_eq_true_eq] at hfind
  have hmem := List.mem_reverse.1 (List.mem_of_find?_eq_some hq)
  rw [List.mem_filterMap] at hmem
  obtain ⟨c, hc, hfc⟩ := hmem
  by_cases hnd : (c.flatten.insertionSort fun x y => x ≤ y).Nodup
  · rw [if_pos hnd, Option.some.injEq] at hfc
    have hc1 : q.1 = c.flatten.insertionSort fun x y => x ≤ y := by rw [← hfc]
    have hc2 : q.2 = c := by rw [← hfc]
    subst hq2
    rw [hc2]
    refine ⟨hc, ?_⟩
    have hperm := List.perm_insertionSort (fun x y => x ≤ y) c.flatten
    rw [← hq1, hc1]
    exact hperm.symm
  · rw [if_neg hnd] at hfc
    exact absurd hfc (by simp)

lemma argsortDesc_perm (xs : List Nat) : (argsortDesc xs).Perm (List.range xs.length) :=
  List.perm_insertionSort _ _

lemma argsortDesc_length (xs : List Nat) : (argsortDesc xs).length = xs.length := by
  rw [(argsortDesc_perm xs).length_eq, List.length_range]

lemma argsortDesc_mem (xs : List Nat) (u : Nat) (hu : u < xs.length) :
    u ∈ argsortDesc xs := by
  rw [(argsortDesc_perm xs).mem_iff]
  exact List.mem_range.2 hu

lemma argsortDesc_get_indexOf (xs : List Nat) (u : Nat) (hu : u < xs.length) :
    (argsortDesc xs).get? (List.indexOf u (argsortDesc xs)) = some u := by
  have hm := argsortDesc_mem xs u hu
  have hlt := List.indexOf_lt_length.2 hm
  rw [List.get?_eq_get hlt, List.indexOf_get hlt]

lemma build_inv_inds_length :
    ∀ (l dord : List Nat) (hist : Nat → Option Nat),
      (build_inv_inds l dord hist).length = l.length := by
  intro l
  induction l with
  | nil => intro dord hist; rfl
  | cons item rest ih =>
    intro dord hist
    simp only [build_inv_inds, List.length_cons]
    rw [ih]

lemma mar_inter_length (uinds ucounts denticities : List Nat)
    (scls : List (List (List Nat))) :
    (mar_inter uinds ucounts denticities scls).length = uinds.length := by
  unfold mar_inter
  rw [List.length_map, List.length_range]

lemma mar_inter_get (uinds ucounts denticities : List Nat)
    (scls : List (List (List Nat))) (u : Nat) (hu : u < uinds.length) :
    (mar_inter uinds ucounts denticities scls).get? u = some
      (if ucounts.getD u 0 = 1 then
        (scls.getD (uinds.getD u 0) [], denticities.getD (uinds.getD u 0) 0,
          (none : Option (List Nat → Option (List (List Nat)))))
      else
        ((map_repeat_to_highdent (scls.getD (uinds.getD u 0) [])
            (ucounts.getD u 0) (denticities.getD (uinds.getD u 0) 0)).1,
         (map_repeat_to_highdent (scls.getD (uinds.getD u 0) [])
            (ucounts.getD u 0) (denticities.getD (uinds.getD u 0) 0)).2.2,
         some (map_repeat_to_highdent (scls.getD (uinds.getD u 0) [])
            (ucounts.getD u 0) (denticities.getD (uinds.getD u 0) 0)).2.1)) := by
  unfold mar_inter
  rw [List.get?_map, List.get?_range hu]
  rfl

lemma map_all_active_fst (uinds uinv ucounts denticities : List Nat)
    (scls : List (List (List Nat)))
    (hany : (ucounts.any fun c => c > 1) = true) :
    (map_all_repeat_to_highdent uinds uinv ucounts denticities scls).1
      = some ((mar_inter uinds ucounts denticities scls).map fun t => t.2.2) := by
  unfold map_all_repeat_to_highdent
  rw [hany]
  rfl

lemma map_all_active_lists (uinds uinv ucounts denticities : List Nat)
    (scls : List (List (List Nat)))
    (hany : (ucounts.any fun c => c > 1) = true) :
    (map_all_repeat_to_highdent uinds uinv ucounts denticities scls).2.1
      = (argsortDesc ((mar_inter uinds ucounts denticities scls).map fun t => t.2.1)).map
          fun j => ((mar_inter uinds ucounts denticities scls).getD j ([], 0, none)).1 := by
  unfold map_all_repeat_to_highdent
  rw [hany]
  rfl

lemma map_all_active_invinds (uinds uinv ucounts denticities : List Nat)
    (scls : List (List (List Nat)))
    (hany : (ucounts.any fun c => c > 1) = true) :
    (map_all_repeat_to_highdent uinds uinv ucounts denticities scls).2.2.2
      = some (build_inv_inds uinv
          (argsortDesc ((mar_inter uinds ucounts denticities scls).map fun t => t.2.1))
          fun _ => none) := by
  unfold map_all_repeat_to_highdent
  rw [hany]
  rfl

/-- **C6.** Round-trip of the repeat-ligand compaction: when some ligand
repeats (`ucounts` has an entry above 1) and the occurrence bookkeeping is
consistent (`ucounts` counts the occurrences of each unique ligand in `uinv`,
and one row of the compacted pattern list is chosen for every pseudo-ligand),
the inverse mapping `inv_map_highdent_to_repeat`, fed with the reverse maps
and occurrence-order index data produced by `map_all_repeat_to_highdent`,
succeeds and recovers one admissible original row per original ligand
occurrence: each recovered row is drawn from that ligand's own site-pattern
list, and for every compacted group the occurrences receive, in
ligand-occurrence order, the per-ligand rows of one `N`-combination of the
group's pattern list whose combined occupied sites are exactly (as a
multiset) the sites of the chosen compacted row. -/
theorem repeat_compaction_roundtrip
    (uinds uinv ucounts denticities : List Nat)
    (selected_con_lists : List (List (List Nat)))
    (incombo : List (List Nat))
    (hany : (ucounts.any fun c => c > 1) = true)
    (hlen : uinds.length = ucounts.length)
    (hcounts : ∀ u, u < ucounts.length → ucounts.getD u 0 = uinv.count u)
    (hrange : (uinv.all fun u => decide (u < ucounts.length)) = true)
    (hinlen : incombo.length = uinds.length)
    (hmem : ∀ p, p < incombo.length →
      incombo.getD p [] ∈ (map_all_repeat_to_highdent uinds uinv ucounts
        denticities selected_con_lists).2.1.getD p []) :
    ∃ fixed,
      inv_map_highdent_to_repeat incombo
        ((map_all_repeat_to_highdent uinds uinv ucounts denticities
            selected_con_lists).1.getD [])
        ((map_all_repeat_to_highdent uinds uinv ucounts denticities
            selected_con_lists).2.2.2.getD []) = some fixed ∧
      fixed.length = uinv.length ∧
      (∀ t u, uinv.get? t = some u →
        ∃ row, fixed.get? t = some row ∧
          row ∈ selected_con_lists.getD (uinds.getD u 0) []) ∧
      (∀ u, u < ucounts.length → 1 < ucounts.getD u 0 →
        ∃ (p : Nat) (row : List Nat) (combo : List (List Nat)),
          incombo.get? p = some row ∧
          combo.length = ucounts.getD u 0 ∧
          combo.flatten.Perm row ∧
          ∀ t, uinv.get? t = some u →
            ((map_all_repeat_to_highdent uinds uinv ucounts denticities
                selected_con_lists).2.2.2.getD []).get? t
              = some (u, p, (uinv.take t).count u) ∧
            fixed.get? t = combo.get? ((uinv.take t).count u)) := by
  have hfst := map_all_active_fst uinds uinv ucounts denticities selected_con_lists hany
  have hlists := map_all_active_lists uinds uinv ucounts denticities selected_con_lists hany
  have hinv := map_all_active_invinds uinds uinv ucounts denticities selected_con_lists hany
  rw [hfst, hinv]
  simp only [Option.getD_some]
  rw [hlists] at hmem
  set inter := mar_inter uinds ucounts denticities selected_con_lists with hintereq
  set dord := argsortDesc (inter.map fun t => t.2.1) with hdordeq
  have hinterlen : inter.length = uinds.length := mar_inter_length _ _ _ _
  have hdordlen : dord.length = uinds.length := by
    rw [hdordeq, argsortDesc_length, List.length_map, hinterlen]
  have hurange : ∀ t u, uinv.get? t = some u → u < ucounts.length := by
    intro t u ht
    rw [List.all_eq_true] at hrange
    exact of_decide_eq_true (hrange u (List.get?_mem ht))
  have hentry : ∀ t u, uinv.get? t = some u →
      (build_inv_inds uinv dord fun _ => none).get? t
        = some (u, List.indexOf u dord, (uinv.take t).count u) :=
    fun t u ht => build_inv_inds_get0 uinv dord t u ht
  have hufacts : ∀ u, u < ucounts.length →
      incombo.get? (List.indexOf u dord)
        = some (incombo.getD (List.indexOf u dord) []) ∧
      incombo.getD (List.indexOf u dord) [] ∈ (inter.getD u ([], 0, none)).1 := by
    intro u hu
    have hu2 : u < uinds.length := by omega
    have hpdl : u < (inter.map fun t => t.2.1).length := by
      rw [List.length_map, hinterlen]
      exact hu2
    have hposdord : List.indexOf u dord < dord.length := by
      rw [hdordeq]
      exact List.indexOf_lt_length.2 (argsortDesc_mem _ u hpdl)
    have hposin : List.indexOf u dord < incombo.length := by
      rw [hinlen]
      omega
    have hget : incombo.get? (List.indexOf u dord)
        = some (incombo.getD (List.indexOf u dord) []) := by
      rw [List.getD_eq_get?, List.get?_eq_get hposin]
      rfl
    have hmm := hmem (List.indexOf u dord) hposin
    have hdat : dord.get? (List.indexOf u dord) = some u := by
      rw [hdordeq]
      exact argsortDesc_get_indexOf _ u hpdl
    have hlist_at : ((dord.map fun j => (inter.getD j ([], 0, none)).1).getD
        (List.indexOf u dord) []) = (inter.getD u ([], 0, none)).1 := by
      rw [List.getD_eq_get?, List.get?_map, hdat]
      rfl
    rw [hlist_at] at hmm
    exact ⟨hget, hmm⟩
  have hfval : ∀ t u, uinv.get? t = some u →
      ∃ v,
        (((inter.map fun r => r.2.2).getD u none).elim
            (incombo.get? (List.indexOf u dord)) fun d =>
            (incombo.get? (List.indexOf u dord)).bind fun row =>
              (d row).bind fun combo => combo.get? ((uinv.take t).count u)) = some v ∧
        v ∈ selected_con_lists.getD (uinds.getD u 0) [] ∧
        (1 < ucounts.getD u 0 → ∃ combo,
          (map_repeat_to_highdent (selected_con_lists.getD (uinds.getD u 0) [])
              (ucounts.getD u 0) (denticities.getD (uinds.getD u 0) 0)).2.1
            (incombo.getD (List.indexOf u dord) []) = some combo ∧
          combo.length = ucounts.getD u 0 ∧
          combo.flatten.Perm (incombo.getD (List.indexOf u dord) []) ∧
          combo.get? ((uinv.take t).count u) = some v) := by
    intro t u ht
    have hu := hurange t u ht
    have hu2 : u < uinds.length := by omega
    obtain ⟨hget, hmm⟩ := hufacts u hu
    have hij : (inter.map fun r => r.2.2).getD u none
        = (inter.getD u ([], 0, none)).2.2 := by
      rw [List.getD_eq_get?, List.getD_eq_get?, List.get?_map,
        List.get?_eq_get (show u < inter.length by rw [hinterlen]; exact hu2)]
      rfl
    have hival := mar_inter_get uinds ucounts denticities selected_con_lists u hu2
    by_cases hc1 : ucounts.getD u 0 = 1
    · have hintval : inter.getD u ([], 0, none)
          = (selected_con_lists.getD (uinds.getD u 0) [],
             denticities.getD (uinds.getD u 0) 0, none) := by
        rw [List.getD_eq_get?, hintereq, hival, if_pos hc1]
        rfl
      rw [hintval] at hij hmm
      refine ⟨incombo.getD (List.indexOf u dord) [], ?_, hmm, ?_⟩
      · rw [hij]
        simp only [Option.elim_none]
        exact hget
      · intro hcontra
        omega
    · have hintval : inter.getD u ([], 0, none)
          = ((map_repeat_to_highdent (selected_con_lists.getD (uinds.getD u 0) [])
                (ucounts.getD u 0) (denticities.getD (uinds.getD u 0) 0)).1,
             (map_repeat_to_highdent (selected_con_lists.getD (uinds.getD u 0) [])
                (ucounts.getD u 0) (denticities.getD (uinds.getD u 0) 0)).2.2,
             some (map_repeat_to_highdent (selected_con_lists.getD (uinds.getD u 0) [])
                (ucounts.getD u 0) (denticities.getD (uinds.getD u 0) 0)).2.1) := by
        rw [List.getD_eq_get?, hintereq, hival, if_neg hc1]
        rfl
      rw [hintval] at hij hmm
      obtain ⟨combo, hcombo⟩ := map_repeat_refdict_some _ _ _ _ hmm
      obtain ⟨hcmem, hcperm⟩ := map_repeat_refdict_spec _ _ _ _ _ hcombo
      obtain ⟨hclen, hcsub⟩ := combinations_mem _ _ _ hcmem
      have hjlt : (uinv.take t).count u < combo.length := by
        rw [hclen, hcounts u hu]
        exact count_take_lt ht
      refine ⟨combo.get ⟨(uinv.take t).count u, hjlt⟩, ?_, ?_, ?_⟩
      · rw [hij]
        simp only [Option.elim_some]
        rw [hget, Option.some_bind, hcombo, Option.some_bind]
        exact List.get?_eq_get hjlt
      · exact hcsub.subset (List.get_mem combo _ hjlt)
      · intro _
        exact ⟨combo, hcombo, hclen, hcperm, List.get?_eq_get hjlt⟩
  have hall : ∀ e ∈ build_inv_inds uinv dord fun _ => none,
      ((fun e : Nat × Nat × Nat =>
        ((inter.map fun r => r.2.2).getD e.1 none).elim (incombo.get? e.2.1) fun d =>
          (incombo.get? e.2.1).bind fun row =>
            (d row).bind fun combo => combo.get? e.2.2) e).isSome = true := by
    intro e he
    rw [List.mem_iff_get?] at he
    obtain ⟨t, ht⟩ := he
    have htlt : t < uinv.length := by
      have h2 := (List.get?_eq_some.1 ht).1
      rw [build_inv_inds_length] at h2
      exact h2
    obtain ⟨u, hu⟩ : ∃ u, uinv.get? t = some u := ⟨_, List.get?_eq_get htlt⟩
    have hent := hentry t u hu
    rw [ht, Option.some.injEq] at hent
    obtain ⟨v, hv, -, -⟩ := hfval t u hu
    rw [hent]
    dsimp only
    rw [hv]
    rfl
  obtain ⟨fixed, hmapm, hlenf, hgetf⟩ :=
    mapM_option_spec _ (build_inv_inds uinv dord fun _ => none) hall
  refine ⟨fixed, ?_, ?_, ?_, ?_⟩
  · unfold inv_map_highdent_to_repeat
    exact hmapm
  · rw [hlenf, build_inv_inds_length]
  · intro t u hu
    obtain ⟨v, hv, hvmem, -⟩ := hfval t u hu
    have hft := hgetf t _ (hentry t u hu)
    dsimp only at hft
    rw [hv] at hft
    exact ⟨v, hft, hvmem⟩
  · intro u hu hcnt
    have hcnt' : 0 < uinv.count u := by
      have h2 := hcounts u hu
      omega
    have humem : u ∈ uinv := List.count_pos_iff_mem.1 hcnt'
    obtain ⟨t0, ht0⟩ := List.mem_iff_get?.1 humem
    obtain ⟨v0, hv0, -, hgrp⟩ := hfval t0 u ht0
    obtain ⟨combo, hcombo, hclen, hcperm, -⟩ := hgrp hcnt
    obtain ⟨hget0, -⟩ := hufacts u hu
    refine ⟨List.indexOf u dord, incombo.getD (List.indexOf u dord) [], combo,
      hget0, hclen, hcperm, ?_⟩
    intro t hut
    refine ⟨hentry t u hut, ?_⟩
    obtain ⟨v, hv, -, hgrp2⟩ := hfval t u hut
    obtain ⟨combo2, hcombo2, -, -, hcg⟩ := hgrp2 hcnt
    have hceq : combo = combo2 := by
      rw [hcombo] at hcombo2
      exact Option.some.inj hcombo2
    have hft := hgetf t _ (hentry t u hut)
    dsimp only at hft
    rw [hv] at hft
    rw [hceq, hcg]
    exact hft

/-- Concrete repeat-compaction instance: one bidentate ligand and a pair of
identical monodentate ligands on a four-site core. -/
def uindsW : List Nat := [0, 1]

def uinvW : List Nat := [0, 1, 1]

def ucountsW : List Nat := [1, 2]

def dentsC6 : List Nat := [2, 1, 1]

def sclsW : List (List (List Nat)) :=
  [[[0, 1], [2, 3]], [[0], [1], [2], [3]], [[0], [1], [2], [3]]]

def incomboW : List (List Nat) := [[0, 1], [2, 3]]

theorem repeat_compaction_roundtrip_witness :
    (ucountsW.any fun c => c > 1) = true ∧
    ∃ fixed,
      inv_map_highdent_to_repeat incomboW
        ((map_all_repeat_to_highdent uindsW uinvW ucountsW dentsC6 sclsW).1.getD [])
        ((map_all_repeat_to_highdent uindsW uinvW ucountsW dentsC6 sclsW).2.2.2.getD [])
        = some fixed ∧
      fixed.length = uinvW.length := by
  refine ⟨by decide, ?_⟩
  obtain ⟨fixed, h1, h2, -, -⟩ :=
    repeat_compaction_roundtrip uindsW uinvW ucountsW dentsC6 sclsW incomboW
      (by decide) (by decide)
      (show ∀ u, u < 2 → ucountsW.getD u 0 = uinvW.count u by decide)
      (by decide) (by decide)
      (show ∀ p, p < 2 →
        incomboW.getD p [] ∈ (map_all_repeat_to_highdent uindsW uinvW ucountsW
          dentsC6 sclsW).2.1.getD p [] by decide)
  exact ⟨fixed, h1, h2⟩
